import Mathlib

/-!
A verification development for `autoesc/context_update.py`, the
context-tracking lexer of a contextual auto-escaping template engine.

The program's data model (module `autoesc.context`, not present in the
sources; modelled from the spec) is a "context": six orthogonal bitfields
(state, element, attribute-kind, delimiter, url-part, js-ctx).  We represent
the packed integer as a structure with one enum per bitfield; bitmask
operations of the source such as `(prior & ~(STATE_ALL | JS_CTX_ALL)) |
STATE_JS | JS_CTX_REGEX` become structure updates of the corresponding
fields.  Strings are `List Char`.  Python exceptions become `Except PyError`.
The source's regexes are embedded as hand-written searcher functions, one
per pattern, with Python `re.search` semantics (leftmost match; each
searcher documents its pattern).
-/

set_option maxHeartbeats 1000000

namespace Autoesc

/-- The `state` bitfield: the primary lexer mode (spec 3.1; `STATE_*`). -/
inductive State where
  | TEXT | RCDATA | HTML_BEFORE_TAG_NAME | TAG_NAME | TAG
  | ATTR_NAME | AFTER_NAME | BEFORE_VALUE | ATTR | HTMLCMT
  | CSS | CSSBLOCK_CMT | CSSLINE_CMT | CSSDQ_STR | CSSSQ_STR
  | CSS_URL | CSSSQ_URL | CSSDQ_URL
  | JS | JSBLOCK_CMT | JSLINE_CMT | JSDQ_STR | JSSQ_STR | JSREGEXP
  | URL | ERROR
deriving DecidableEq, Repr

/-- The `element` bitfield: enclosing special HTML element (`ELEMENT_*`). -/
inductive Element where
  | NONE | SCRIPT | STYLE | LISTING | TEXTAREA | TITLE | XMP | CLOSE
deriving DecidableEq, Repr

/-- The attribute-kind bitfield (`ATTR_*`). -/
inductive AttrKind where
  | NONE | SCRIPT | STYLE | URL | PLAIN
deriving DecidableEq, Repr

/-- The delimiter bitfield (`DELIM_*`). -/
inductive Delim where
  | NONE | DOUBLE_QUOTE | SINGLE_QUOTE | SPACE_OR_TAG_END
deriving DecidableEq, Repr

/-- The url-part bitfield (`URL_PART_*`). -/
inductive UrlPart where
  | NONE | PRE_QUERY | QUERY_OR_FRAG | UNKNOWN
deriving DecidableEq, Repr

/-- The js-ctx bitfield (`JS_CTX_*`); `REGEX` is the all-bits-clear default. -/
inductive JsCtx where
  | REGEX | DIV_OP | UNKNOWN
deriving DecidableEq, Repr

/-- Modelled from the spec: a context is a packed integer of six orthogonal
bitfields (module `autoesc.context`, absent from the sources).  We represent
it as a structure; the packed layout is not observable through the
accessors, which the spec says is the only stable interface. -/
structure Context where
  state : State
  element : Element
  attr : AttrKind
  delim : Delim
  urlPart : UrlPart
  jsCtx : JsCtx
deriving DecidableEq, Repr

/-- A bare state constant such as the Python `STATE_TEXT`: the packed
integer with all non-state bitfields zero. -/
def bareCtx (s : State) : Context :=
  ⟨s, .NONE, .NONE, .NONE, .NONE, .REGEX⟩

/-- The distinguished `STATE_ERROR` context value. -/
def errorContext : Context := bareCtx .ERROR

/-- Modelled from the spec: accessor `state_of` of `autoesc.context`. -/
def state_of (c : Context) : State := c.state

/-- Modelled from the spec: accessor `element_type_of` of `autoesc.context`. -/
def element_type_of (c : Context) : Element := c.element

/-- Modelled from the spec: accessor `attr_type_of` of `autoesc.context`. -/
def attr_type_of (c : Context) : AttrKind := c.attr

/-- Modelled from the spec: accessor `delim_type_of` of `autoesc.context`. -/
def delim_type_of (c : Context) : Delim := c.delim

/-- Modelled from the spec: accessor `url_part_of` of `autoesc.context`. -/
def url_part_of (c : Context) : UrlPart := c.urlPart

/-- Modelled from the spec: accessor `js_ctx_of` of `autoesc.context`. -/
def js_ctx_of (c : Context) : JsCtx := c.jsCtx

/-- Modelled from the spec: predicate `is_error_context` of
`autoesc.context`: whether the state bitfield is `STATE_ERROR`. -/
def is_error_context (c : Context) : Bool := c.state = State.ERROR

/-- Modelled from the spec (4.1): constructor `after_attr_delimiter
(element, attr_kind, delim)` of `autoesc.context`: the context on entering
an attribute value of the given kind; element, attr-kind and delimiter are
preserved, url-part starts at NONE, js-ctx at REGEX for script attributes. -/
def after_attr_delimiter (el : Element) (attr : AttrKind) (delim : Delim) :
    Context :=
  match attr with
  | .SCRIPT => ⟨.JS, el, attr, delim, .NONE, .REGEX⟩
  | .STYLE => ⟨.CSS, el, attr, delim, .NONE, .REGEX⟩
  | .URL => ⟨.URL, el, attr, delim, .NONE, .REGEX⟩
  | _ => ⟨.ATTR, el, attr, delim, .NONE, .REGEX⟩

/-- Modelled from the spec (3.1): the static table `DELIM_TEXT` mapping each
delimiter to its literal closing string: `"`, `'`, or the empty string for
the space-or-tag-end (unquoted) delimiter. -/
def DELIM_TEXT : Delim → List Char
  | .DOUBLE_QUOTE => ['"']
  | .SINGLE_QUOTE => ['\'']
  | _ => []

/-- The Python error channels of `context_update.py`:
`ContextUpdateFailure(msg)`, the internal infinite-loop `Exception` of
`_process_next_token`, the `AssertionError` of `process_raw_text`, and the
`KeyError` a lookup such as `_TAG_DONE_ELEMENT_TO_PARTIAL_CONTEXT[el]`
raises on a missing key. -/
inductive PyError where
  | ContextUpdateFailure (msg : List Char)
  | InfLoopError
  | AssertionFailure
  | KeyFailure
deriving DecidableEq, Repr

deriving instance DecidableEq for Except

/-- A regex match, as the Python `re` match objects used by the source:
the subject string (`match.string`), `match.start(0)`, `match.end(0)`, and
the text of capture group 1 when the pattern has one and it participated. -/
structure SMatch where
  str : List Char
  start : Nat
  stop : Nat
  g1 : Option (List Char)
deriving DecidableEq, Repr

/-- `match.group(0)`: the text between `match.start(0)` and `match.end(0)`. -/
def SMatch.group0 (m : SMatch) : List Char :=
  (m.str.drop m.start).take (m.stop - m.start)

/-! ### Character classes (Python `re`, ASCII range) -/

/-- Python `\s` on ASCII: space, tab, newline, carriage return, form feed,
vertical tab. -/
def isPySpace (c : Char) : Bool :=
  c = ' ' || c = '\t' || c = '\n' || c = '\r' || c = '\x0b' || c = '\x0c'

def isAsciiLetter (c : Char) : Bool :=
  ('a' ≤ c && c ≤ 'z') || ('A' ≤ c && c ≤ 'Z')

def isAsciiDigit (c : Char) : Bool := '0' ≤ c && c ≤ '9'

def isAsciiAlnum (c : Char) : Bool := isAsciiLetter c || isAsciiDigit c

/-- Python `\w` (ASCII): letters, digits, underscore. -/
def isWordChar (c : Char) : Bool := isAsciiAlnum c || c = '_'

/-- The JS line terminators `NLS = "\n\r  "` of the source. -/
def isJsNl (c : Char) : Bool :=
  c = '\n' || c = '\r' || c = ' ' || c = ' '

/-- ASCII-lowercase a character (for the source's `(?i)` patterns and
`.lower()` calls). -/
def lowerChar (c : Char) : Char :=
  if 'A' ≤ c && c ≤ 'Z' then Char.ofNat (c.toNat + 32) else c

def lowerStr (s : List Char) : List Char := s.map lowerChar

/-- Case-insensitive literal-prefix test (`(?i)` literals). -/
def startsWithCI : List Char → List Char → Bool
  | [], _ => true
  | _ :: _, [] => false
  | n :: ns, c :: cs => lowerChar c = lowerChar n && startsWithCI ns cs

/-- Case-sensitive literal-prefix test. -/
def startsWithCS : List Char → List Char → Bool
  | [], _ => true
  | _ :: _, [] => false
  | n :: ns, c :: cs => c = n && startsWithCS ns cs

/-! ### Search combinators

A pattern is embedded as a `matchAt` function on a suffix of the subject,
returning the matched length and the optional capture group 1; `searchPat`
gives it Python `re.search` semantics (try each start position left to
right).  `\A`-anchored patterns use `searchAnchored`; a bare `\Z` uses
`searchEndZ`. -/

def searchFrom (f : List Char → Option (Nat × Option (List Char)))
    (text : List Char) : Nat → List Char → Option SMatch
  | i, [] =>
    match f [] with
    | some (len, g) => some ⟨text, i, i + len, g⟩
    | none => none
  | i, s@(_ :: rest) =>
    match f s with
    | some (len, g) => some ⟨text, i, i + len, g⟩
    | none => searchFrom f text (i + 1) rest

def searchPat (f : List Char → Option (Nat × Option (List Char)))
    (text : List Char) : Option SMatch :=
  searchFrom f text 0 text

def searchAnchored (f : List Char → Option (Nat × Option (List Char)))
    (text : List Char) : Option SMatch :=
  (f text).map fun lg => ⟨text, 0, lg.1, lg.2⟩

/-- The pattern `\Z`: a zero-width match at the end of the subject. -/
def searchEndZ (text : List Char) : Option SMatch :=
  some ⟨text, text.length, text.length, none⟩

/-- `pat|\Z` for a group pattern `pat`: the leftmost `pat` match, else the
zero-width match at the end. -/
def searchPatOrEnd (f : List Char → Option (Nat × Option (List Char)))
    (text : List Char) : Option SMatch :=
  match searchPat f text with
  | some m => some m
  | none => some ⟨text, text.length, text.length, none⟩

/-- Leftmost match of a case-sensitive literal. -/
def searchLit (lit : List Char) (text : List Char) : Option SMatch :=
  searchPat (fun s => if startsWithCS lit s then some (lit.length, none) else none)
    text

/-- Leftmost occurrence of a single character from a set. -/
def searchCharClass (p : Char → Bool) (text : List Char) : Option SMatch :=
  searchPat
    (fun s => match s with
      | c :: _ => if p c then some (1, none) else none
      | [] => none)
    text

end Autoesc

namespace Autoesc

/-! ### The embedded patterns of `context_update.py`, one searcher each -/

def countWhile (p : Char → Bool) (s : List Char) : Nat :=
  (s.takeWhile p).length

/-- `\A[^<]+` (first rule of `STATE_TEXT`). -/
def search_text_chunk (text : List Char) : Option SMatch :=
  searchAnchored
    (fun s =>
      let n := countWhile (fun c => !(c == '<')) s
      if n = 0 then none else some (n, none))
    text

/-- `(?i)<name(?![a-z\-])` for a literal tag name (the `<script`, `<style`,
`<textarea`, `<title`, `<xmp` rules of `STATE_TEXT`). -/
def searchTagOpenCI (nm : List Char) (text : List Char) : Option SMatch :=
  searchPat
    (fun s =>
      match s with
      | '<' :: r =>
        if startsWithCI nm r then
          match r.drop nm.length with
          | [] => some (1 + nm.length, none)
          | c :: _ =>
            if isAsciiLetter c || c == '-' then none
            else some (1 + nm.length, none)
        else none
      | _ => none)
    text

/-- `(?i)<(?!/?(?:[a-z]|\Z)|!doctype)` (the stray-`<` rule of `STATE_TEXT`,
normalized to `&lt;`). -/
def search_lt_bang_norm (text : List Char) : Option SMatch :=
  searchPat
    (fun s =>
      match s with
      | '<' :: r =>
        let look : Bool :=
          match r with
          | [] => true
          | '/' :: r2 =>
            (match r2 with
             | [] => true
             | c :: _ => isAsciiLetter c)
          | c :: _ => isAsciiLetter c
        if look || startsWithCI "!doctype".toList r then none
        else some (1, none)
      | _ => none)
    text

/-- `(?i)</([a-z\-]+)(?![a-z\-])` (the `STATE_RCDATA` end-tag rule; the
trailing negative lookahead is satisfied because the captured run is
maximal). -/
def search_rcdata_end_tag (text : List Char) : Option SMatch :=
  searchPat
    (fun s =>
      match s with
      | '<' :: '/' :: r =>
        let n := countWhile (fun c => isAsciiLetter c || c == '-') r
        if n = 0 then none else some (2 + n, some (r.take n))
      | _ => none)
    text

/-- `\A[A-Za-z]+` (first rule of `STATE_HTML_BEFORE_TAG_NAME`). -/
def search_tag_name_start (text : List Char) : Option SMatch :=
  searchAnchored
    (fun s =>
      let n := countWhile isAsciiLetter s
      if n = 0 then none else some (n, none))
    text

/-- `\A(?=[^A-Za-z])` (second rule of `STATE_HTML_BEFORE_TAG_NAME`):
zero-width, requires a first character that is not a letter. -/
def search_not_tag_name (text : List Char) : Option SMatch :=
  match text with
  | c :: _ => if isAsciiLetter c then none else some ⟨text, 0, 0, none⟩
  | [] => none

/-- `\A[A-Za-z0-9:-]*(?:[A-Za-z0-9]|\Z)` (first rule of `STATE_TAG_NAME`).
The greedy star backtracks until the next character is alphanumeric or the
subject ends, so the match is the class run when it reaches the end of the
subject, else the run with trailing `:`/`-` characters dropped (no match if
that leaves nothing). -/
def search_tag_name_rest (text : List Char) : Option SMatch :=
  searchAnchored
    (fun s =>
      let j0 := countWhile (fun c => isAsciiAlnum c || c == ':' || c == '-') s
      if j0 = s.length then some (j0, none)
      else
        let t := countWhile (fun c => c == ':' || c == '-') (s.take j0).reverse
        if j0 - t = 0 then none else some (j0 - t, none))
    text

/-- `\A(?=[\/\s>])` (second rule of `STATE_TAG_NAME`): zero-width. -/
def search_tag_name_done (text : List Char) : Option SMatch :=
  match text with
  | c :: _ =>
    if c == '/' || isPySpace c || c == '>' then some ⟨text, 0, 0, none⟩
    else none
  | [] => none

/-- `\A\s*([A-Za-z][\w:-]*)` (attribute-name rule of `STATE_TAG`). -/
def search_attr_name_g (text : List Char) : Option SMatch :=
  searchAnchored
    (fun s =>
      let w := countWhile isPySpace s
      match s.drop w with
      | c :: r =>
        if isAsciiLetter c then
          let k := countWhile (fun c2 => isWordChar c2 || c2 == ':' || c2 == '-') r
          some (w + 1 + k, some (c :: r.take k))
        else none
      | [] => none)
    text

/-- `\A\s*\/?>` (the tag-done rule of `STATE_TAG`). -/
def search_tag_done_pat (text : List Char) : Option SMatch :=
  searchAnchored
    (fun s =>
      let w := countWhile isPySpace s
      match s.drop w with
      | '>' :: _ => some (w + 1, none)
      | '/' :: '>' :: _ => some (w + 2, none)
      | _ => none)
    text

/-- `\A\s+\Z` (trailing-whitespace rule of `STATE_TAG`). -/
def search_ws_to_end (text : List Char) : Option SMatch :=
  searchAnchored
    (fun s =>
      if !s.isEmpty && s.all isPySpace then some (s.length, none) else none)
    text

/-- `[A-Za-z0-9\-]+` (first rule of `STATE_ATTR_NAME`; unanchored). -/
def search_attr_name_chars (text : List Char) : Option SMatch :=
  searchPat
    (fun s =>
      let n := countWhile (fun c => isAsciiAlnum c || c == '-') s
      if n = 0 then none else some (n, none))
    text

/-- `\A`: a zero-width match at the start, always succeeds. -/
def search_eps (text : List Char) : Option SMatch :=
  some ⟨text, 0, 0, none⟩

/-- `\A\s*=` (first rule of `STATE_AFTER_NAME`). -/
def search_ws_eq (text : List Char) : Option SMatch :=
  searchAnchored
    (fun s =>
      let w := countWhile isPySpace s
      match s.drop w with
      | '=' :: _ => some (w + 1, none)
      | _ => none)
    text

/-- `\A\s+` (anchored whitespace run). -/
def search_ws1 (text : List Char) : Option SMatch :=
  searchAnchored
    (fun s =>
      let n := countWhile isPySpace s
      if n = 0 then none else some (n, none))
    text

/-- `\A\s*["]` (double-quoted value rule of `STATE_BEFORE_VALUE`). -/
def search_ws_dq (text : List Char) : Option SMatch :=
  searchAnchored
    (fun s =>
      let w := countWhile isPySpace s
      match s.drop w with
      | '"' :: _ => some (w + 1, none)
      | _ => none)
    text

/-- `\A\s*[\']` (single-quoted value rule of `STATE_BEFORE_VALUE`). -/
def search_ws_sq (text : List Char) : Option SMatch :=
  searchAnchored
    (fun s =>
      let w := countWhile isPySpace s
      match s.drop w with
      | '\'' :: _ => some (w + 1, none)
      | _ => none)
    text

/-- `\A(?=[^=\"\'\`\s>])` (unquoted value start, `STATE_BEFORE_VALUE`):
zero-width. -/
def search_unquoted_start (text : List Char) : Option SMatch :=
  match text with
  | c :: _ =>
    if c == '=' || c == '"' || c == '\'' || c == '`' || isPySpace c || c == '>'
    then none
    else some ⟨text, 0, 0, none⟩
  | [] => none

/-- `\A(?=/?>)` (empty value before tag end, `STATE_BEFORE_VALUE`):
zero-width. -/
def search_empty_value_end (text : List Char) : Option SMatch :=
  match text with
  | '>' :: _ => some ⟨text, 0, 0, none⟩
  | '/' :: '>' :: _ => some ⟨text, 0, 0, none⟩
  | _ => none

/-- The prefix test of `(?i)\burl\s*\(\s*([\"\']?)` at one position (the
word boundary is checked by the caller). -/
def cssUriAt (s : List Char) : Option (Nat × Option (List Char)) :=
  if startsWithCI "url".toList s then
    let r := s.drop 3
    let w1 := countWhile isPySpace r
    match r.drop w1 with
    | '(' :: r2 =>
      let w2 := countWhile isPySpace r2
      match r2.drop w2 with
      | '"' :: _ => some (3 + w1 + 1 + w2 + 1, some ['"'])
      | '\'' :: _ => some (3 + w1 + 1 + w2 + 1, some ['\''])
      | _ => some (3 + w1 + 1 + w2, some [])
    | _ => none
  else none

def searchCssUriFrom (text : List Char) :
    Nat → Bool → List Char → Option SMatch
  | _, _, [] => none
  | i, pw, s@(c :: r) =>
    match (if pw then none else cssUriAt s) with
    | some (len, g) => some ⟨text, i, i + len, g⟩
    | none => searchCssUriFrom text (i + 1) (isWordChar c) r

/-- `(?i)\burl\s*\(\s*([\"\']?)` (the `url(` rule of `STATE_CSS`); group 1
is the optional quote delimiter (possibly empty). -/
def search_css_uri (text : List Char) : Option SMatch :=
  searchCssUriFrom text 0 false text

/-- `(?i)<\/style\b` (`_STYLE_TAG_END`). -/
def search_style_end (text : List Char) : Option SMatch :=
  searchPat
    (fun s =>
      if startsWithCI "</style".toList s then
        match s.drop 7 with
        | [] => some (7, none)
        | c :: _ => if isWordChar c then none else some (7, none)
      else none)
    text

/-- `(?i)<\/script\b` (`_SCRIPT_TAG_END`). -/
def search_script_end (text : List Char) : Option SMatch :=
  searchPat
    (fun s =>
      if startsWithCI "</script".toList s then
        match s.drop 8 with
        | [] => some (8, none)
        | c :: _ => if isWordChar c then none else some (8, none)
      else none)
    text

/-- `\\(?:\r\n?|[\n\f\"])` (line continuation or escape in a double-quoted
CSS string). -/
def search_css_esc_dq (text : List Char) : Option SMatch :=
  searchPat
    (fun s =>
      match s with
      | '\\' :: '\r' :: '\n' :: _ => some (3, none)
      | '\\' :: '\r' :: _ => some (2, none)
      | '\\' :: '\n' :: _ => some (2, none)
      | '\\' :: '\x0c' :: _ => some (2, none)
      | '\\' :: '"' :: _ => some (2, none)
      | _ => none)
    text

/-- `\\(?:\r\n?|[\n\f\'])` (line continuation or escape in a single-quoted
CSS string). -/
def search_css_esc_sq (text : List Char) : Option SMatch :=
  searchPat
    (fun s =>
      match s with
      | '\\' :: '\r' :: '\n' :: _ => some (3, none)
      | '\\' :: '\r' :: _ => some (2, none)
      | '\\' :: '\n' :: _ => some (2, none)
      | '\\' :: '\x0c' :: _ => some (2, none)
      | '\\' :: '\'' :: _ => some (2, none)
      | _ => none)
    text

/-- One-position test of `[?#]|\\(?:23|3[fF]|[?#])` (the group of
`_CSSURL_PART_TRANSITION`). -/
def cssUrlPartAt (s : List Char) : Option (Nat × Option (List Char)) :=
  match s with
  | '?' :: _ => some (1, some ['?'])
  | '#' :: _ => some (1, some ['#'])
  | '\\' :: '2' :: '3' :: _ => some (3, some ['\\', '2', '3'])
  | '\\' :: '3' :: 'f' :: _ => some (3, some ['\\', '3', 'f'])
  | '\\' :: '3' :: 'F' :: _ => some (3, some ['\\', '3', 'F'])
  | '\\' :: '?' :: _ => some (2, some ['\\', '?'])
  | '\\' :: '#' :: _ => some (2, some ['\\', '#'])
  | _ => none

/-- `([?#]|\\(?:23|3[fF]|[?#]))|\Z` (`_CSSURL_PART_TRANSITION`). -/
def search_css_url_part (text : List Char) : Option SMatch :=
  searchPatOrEnd cssUrlPartAt text

/-- `([?#])|\Z` (`_URL_PART_TRANSITION`). -/
def search_url_part (text : List Char) : Option SMatch :=
  searchPatOrEnd
    (fun s =>
      match s with
      | '?' :: _ => some (1, some ['?'])
      | '#' :: _ => some (1, some ['#'])
      | _ => none)
    text

/-- Length of the greedy run of `(?:[^<\/\"\'\s\\]|<(?!\/script))` units
(the `_JsPuncTransition` pattern body). -/
def jsPuncCount : List Char → Nat
  | [] => 0
  | '<' :: r => if startsWithCI "/script".toList r then 0 else 1 + jsPuncCount r
  | c :: r =>
    if c == '/' || c == '"' || c == '\'' || c == '\\' || isPySpace c then 0
    else 1 + jsPuncCount r

/-- `(?i)(?:[^<\/\"\'\s\\]|<(?!\/script))+` (words, punctuation and numbers
in `STATE_JS`; unanchored). -/
def search_js_punc (text : List Char) : Option SMatch :=
  searchPat
    (fun s =>
      let n := jsPuncCount s
      if n = 0 then none else some (n, none))
    text

/-- `\s+` (unanchored whitespace run, `STATE_JS`). -/
def search_ws_plus (text : List Char) : Option SMatch :=
  searchPat
    (fun s =>
      let n := countWhile isPySpace s
      if n = 0 then none else some (n, none))
    text

/-- Greedy unit run of the `STATE_JSDQ_STR` body pattern
`(?i)\A(?:[^\"\\<NLS]|\\(?:\r\n?|[^\r<]|<(?!/script))|<(?!/script))+`
with the quote character as a parameter (the `STATE_JSSQ_STR` body is
identical with `'` for `"`). -/
def jsStrCount (q : Char) : List Char → Nat
  | '\\' :: '\r' :: '\n' :: r => 3 + jsStrCount q r
  | '\\' :: '\r' :: r => 2 + jsStrCount q r
  | '\\' :: '<' :: r =>
    if startsWithCI "/script".toList r then 0 else 2 + jsStrCount q r
  | '\\' :: _ :: r => 2 + jsStrCount q r
  | ['\\'] => 0
  | '<' :: r => if startsWithCI "/script".toList r then 0 else 1 + jsStrCount q r
  | c :: r => if c == q || isJsNl c then 0 else 1 + jsStrCount q r
  | [] => 0

/-- The anchored `STATE_JSDQ_STR` body rule. -/
def search_jsdq_body (text : List Char) : Option SMatch :=
  searchAnchored
    (fun s =>
      let n := jsStrCount '"' s
      if n = 0 then none else some (n, none))
    text

/-- The anchored `STATE_JSSQ_STR` body rule. -/
def search_jssq_body (text : List Char) : Option SMatch :=
  searchAnchored
    (fun s =>
      let n := jsStrCount '\'' s
      if n = 0 then none else some (n, none))
    text

/-- Inner star of the `STATE_JSREGEXP` charset branch:
`(?:[^\]\\<NLS]|\\(?:[^NLS]))*`. -/
def jsReCharsetCount : List Char → Nat
  | '\\' :: c :: r => if isJsNl c then 0 else 2 + jsReCharsetCount r
  | c :: r =>
    if c == ']' || c == '\\' || c == '<' || isJsNl c then 0
    else 1 + jsReCharsetCount r
  | [] => 0

/-- Greedy unit run of the `STATE_JSREGEXP` body pattern (recursion made
structural on a fuel bounded by the subject length, since each unit
consumes at least one character).  Unit alternatives in source order:
`[^\[\\/<NLS]`; `\\[^NLS]`; `\\?<(?!/script)`;
`\[(?:[^\]\\<NLS]|\\[^NLS])*`; the final `\\?<(?!/script)\]` alternative
is unreachable because the third alternative subsumes its prefix. -/
def jsReCountF : Nat → List Char → Nat
  | _, [] => 0
  | 0, _ :: _ => 0
  | fuel + 1, s =>
    match s with
    | '\\' :: c :: r => if isJsNl c then 0 else 2 + jsReCountF fuel r
    | ['\\'] => 0
    | '<' :: r =>
      if startsWithCI "/script".toList r then 0 else 1 + jsReCountF fuel r
    | '[' :: r =>
      1 + jsReCharsetCount r + jsReCountF fuel (r.drop (jsReCharsetCount r))
    | c :: r => if c == '/' || isJsNl c then 0 else 1 + jsReCountF fuel r
    | [] => 0

def jsReCount (s : List Char) : Nat := jsReCountF s.length s

/-- The anchored `STATE_JSREGEXP` body rule. -/
def search_jsre_body (text : List Char) : Option SMatch :=
  searchAnchored
    (fun s =>
      let n := jsReCount s
      if n = 0 then none else some (n, none))
    text

end Autoesc

namespace Autoesc

/-! ### Transition rules (`_Transition` and its subclasses) -/

/-- A transition rule: a compiled pattern (as a searcher), the
`is_applicable_to` predicate, the `compute_next_context` computation
(`Except` because `_SlashTransition` and `_TagDoneTransition` can raise),
and the `raw_text` normalizer.  The defaults are those of the base
`_Transition` class: always applicable, and
`raw_text(match) = match.string[:match.end()]`. -/
structure Transition where
  search : List Char → Option SMatch
  is_applicable_to : Context → SMatch → Bool := fun _ _ => true
  compute_next_context : Context → SMatch → Except PyError Context
  raw_text : SMatch → List Char := fun m => m.str.take m.stop

/-- `_ToTransition(regex, dest)`. -/
def _ToTransition (search : List Char → Option SMatch) (dest : Context) :
    Transition :=
  { search := search
    compute_next_context := fun _ _ => .ok dest }

/-- `_ToTagTransition(regex, context)`. -/
def _ToTagTransition (search : List Char → Option SMatch) (context : Context) :
    Transition :=
  { search := search
    compute_next_context := fun _ _ => .ok context }

/-- `_NormalizeTransition(transition, repl, replace_whole)`: delegates
`compute_next_context` and `is_applicable_to` to the inner transition and
overrides `raw_text` with `repl` (when whole) or the prefix before the
match followed by `repl`. -/
def _NormalizeTransition (t : Transition) (repl : List Char)
    (replace_whole : Bool := false) : Transition :=
  { t with
    raw_text := fun m =>
      if replace_whole then repl else m.str.take m.start ++ repl }

/-- `_NormalizeJsBlockCommentTransition(pattern)`: emits `"\n"` when the
text up to the match end contains a JS line terminator, else `""`. -/
def _NormalizeJsBlockCommentTransition (t : Transition) : Transition :=
  { t with
    raw_text := fun m =>
      if (m.str.take m.stop).any isJsNl then ['\n'] else [] }

/-- `_TAG_DONE_ELEMENT_TO_PARTIAL_CONTEXT[el] | el`: the partial context of
the tag's body, or a `KeyError` for `ELEMENT_CLOSE`, which the dict omits. -/
def tagDoneContext (el : Element) : Except PyError Context :=
  match el with
  | .NONE => .ok ⟨.TEXT, el, .NONE, .NONE, .NONE, .REGEX⟩
  | .SCRIPT => .ok ⟨.JS, el, .NONE, .NONE, .NONE, .REGEX⟩
  | .STYLE => .ok ⟨.CSS, el, .NONE, .NONE, .NONE, .REGEX⟩
  | .LISTING => .ok ⟨.RCDATA, el, .NONE, .NONE, .NONE, .REGEX⟩
  | .TEXTAREA => .ok ⟨.RCDATA, el, .NONE, .NONE, .NONE, .REGEX⟩
  | .TITLE => .ok ⟨.RCDATA, el, .NONE, .NONE, .NONE, .REGEX⟩
  | .XMP => .ok ⟨.RCDATA, el, .NONE, .NONE, .NONE, .REGEX⟩
  | .CLOSE => .error .KeyFailure

/-- `_TagDoneTransition(regex)`. -/
def _TagDoneTransition (search : List Char → Option SMatch) : Transition :=
  { search := search
    compute_next_context := fun prior _ => tagDoneContext (element_type_of prior) }

/-- `_TransitionBackToTag(regex)`: `STATE_TAG | element_type_of(prior)`. -/
def _TransitionBackToTag (search : List Char → Option SMatch) : Transition :=
  { search := search
    compute_next_context := fun prior _ =>
      .ok ⟨.TAG, element_type_of prior, .NONE, .NONE, .NONE, .REGEX⟩ }

/-- Modelled from the spec (4.7): the collaborator `html.attr_type(name)`
(module `autoesc.html`, absent from the sources): classifies an attribute
name into a content kind from a fixed table — `on*` handlers are JS,
`style` is CSS, URL-valued attribute names are URL, anything else plain. -/
inductive ContentKind where
  | JS | CSS | URL | PLAIN
deriving DecidableEq, Repr

def urlAttrNames : List (List Char) :=
  ["href", "src", "action", "formaction", "background", "cite", "codebase",
   "data", "longdesc", "poster", "usemap", "icon", "manifest",
   "archive"].map String.toList

/-- Modelled from the spec: `html.attr_type`. -/
def html_attr_type (name : List Char) : ContentKind :=
  let n := lowerStr name
  if startsWithCS "on".toList n then .JS
  else if n = "style".toList then .CSS
  else if urlAttrNames.contains n then .URL
  else .PLAIN

/-- `_TransitionToAttrName(regex)`: classifies the captured attribute name
and moves to `STATE_ATTR_NAME | element | attr`. -/
def _TransitionToAttrName (search : List Char → Option SMatch) : Transition :=
  { search := search
    compute_next_context := fun prior m =>
      let content_kind := html_attr_type (m.g1.getD [])
      let attr : AttrKind :=
        match content_kind with
        | .JS => .SCRIPT
        | .CSS => .STYLE
        | .URL => .URL
        | .PLAIN => attr_type_of prior
      .ok ⟨.ATTR_NAME, element_type_of prior, attr, .NONE, .NONE, .REGEX⟩ }

/-- `_TransitionToAttrValue(regex, delim)`. -/
def _TransitionToAttrValue (search : List Char → Option SMatch)
    (delim : Delim) : Transition :=
  { search := search
    compute_next_context := fun prior _ =>
      .ok (after_attr_delimiter (element_type_of prior) (attr_type_of prior)
        delim) }

/-- `_TransitionToState(regex, state)`:
`(prior & ~(URL_PART_ALL | STATE_ALL)) | state`. -/
def _TransitionToState (search : List Char → Option SMatch) (state : State) :
    Transition :=
  { search := search
    compute_next_context := fun prior _ =>
      .ok { prior with state := state, urlPart := .NONE } }

/-- `_TransitionToJsString(regex, state)`:
`(prior & (ELEMENT_ALL | ATTR_ALL | DELIM_ALL)) | state`. -/
def _TransitionToJsString (search : List Char → Option SMatch)
    (state : State) : Transition :=
  { search := search
    compute_next_context := fun prior _ =>
      .ok ⟨state, prior.element, prior.attr, prior.delim, .NONE, .REGEX⟩ }

/-- The `ContextUpdateFailure` message of `_SlashTransition`:
`"ambiguous / could start a division or a RegExp.  Please parenthesize
near `%s`." % match.string[match.start():]`. -/
def slashAmbiguityMsg (suffix : List Char) : List Char :=
  "ambiguous / could start a division or a RegExp.  Please parenthesize near `".toList
    ++ suffix ++ "`.".toList

/-- `_SlashTransition(regex)`: a regex literal or a division depending on
the JS context bits; ambiguous when they are `JS_CTX_UNKNOWN`. -/
def _SlashTransition (search : List Char → Option SMatch) : Transition :=
  { search := search
    compute_next_context := fun prior m =>
      match js_ctx_of prior with
      | .DIV_OP => .ok { prior with state := .JS, jsCtx := .REGEX }
      | .REGEX => .ok { prior with state := .JSREGEXP, jsCtx := .REGEX }
      | .UNKNOWN =>
        .error (.ContextUpdateFailure
          (slashAmbiguityMsg (m.str.drop m.start))) }

/-- Modelled from the spec (4.7): the collaborator
`js.next_js_ctx(token, prior)` (module `autoesc.js`, absent from the
sources): updates js-ctx by the regex-vs-division heuristic — a token
ending in an identifier or number that is not a regex-preceding keyword,
or in `)`/`]`, precedes division; anything else precedes a regex. -/
def jsRegexPrecederKeywords : List (List Char) :=
  ["break", "case", "continue", "delete", "do", "else", "finally", "in",
   "instanceof", "return", "throw", "try", "typeof", "void"].map String.toList

/-- Modelled from the spec: `js.next_js_ctx`. -/
def js_next_js_ctx (token : List Char) (prior : Context) : Context :=
  match token.getLast? with
  | none => prior
  | some c =>
    if isWordChar c then
      let w := (token.reverse.takeWhile isWordChar).reverse
      if jsRegexPrecederKeywords.contains (lowerStr w) then
        { prior with jsCtx := .REGEX }
      else { prior with jsCtx := .DIV_OP }
    else if c = ')' || c = ']' then { prior with jsCtx := .DIV_OP }
    else { prior with jsCtx := .REGEX }

/-- `_JsPuncTransition(regex)`: delegates to `js.next_js_ctx`. -/
def _JsPuncTransition (search : List Char → Option SMatch) : Transition :=
  { search := search
    compute_next_context := fun prior m => .ok (js_next_js_ctx m.group0 prior) }

/-- `_TransitionToSelf(regex)`. -/
def _TransitionToSelf (search : List Char → Option SMatch) : Transition :=
  { search := search
    compute_next_context := fun prior _ => .ok prior }

/-- `_TRANSITION_TO_SELF = _TransitionToSelf(r'\Z')`. -/
def _TRANSITION_TO_SELF : Transition := _TransitionToSelf searchEndZ

/-- `_URLPartTransition(pattern)`: tracks the url-part of a hierarchical
URL: any preceding non-space text advances NONE to PRE_QUERY, and a matched
group 1 (`?`, `#`, or an encoded form) advances to QUERY_OR_FRAG. -/
def _URLPartTransition (search : List Char → Option SMatch) : Transition :=
  { search := search
    compute_next_context := fun prior m =>
      let url_part0 := url_part_of prior
      let url_part1 :=
        if url_part0 = .NONE && (m.str.take m.stop).any (fun c => !isPySpace c)
        then UrlPart.PRE_QUERY else url_part0
      let url_part2 :=
        if url_part1 ≠ .QUERY_OR_FRAG && m.g1.getD [] ≠ [] then
          UrlPart.QUERY_OR_FRAG
        else url_part1
      .ok { prior with urlPart := url_part2 } }

def _URL_PART_TRANSITION : Transition := _URLPartTransition search_url_part

def _CSSURL_PART_TRANSITION : Transition := _URLPartTransition search_css_url_part

/-- `_EndTagTransition(pattern)`: `STATE_TAG | ELEMENT_NONE`; applicable
only outside attribute values (`attr_type_of(prior) == ATTR_NONE`). -/
def _EndTagTransition (search : List Char → Option SMatch) : Transition :=
  { search := search
    is_applicable_to := fun prior _ => attr_type_of prior = .NONE
    compute_next_context := fun _ _ =>
      .ok ⟨.TAG, .NONE, .NONE, .NONE, .NONE, .REGEX⟩ }

def _SCRIPT_TAG_END : Transition := _EndTagTransition search_script_end

def _STYLE_TAG_END : Transition := _EndTagTransition search_style_end

/-- `_ELEMENT_TO_TAG_NAME.get(el)`. -/
def elementTagName : Element → Option (List Char)
  | .TEXTAREA => some "textarea".toList
  | .TITLE => some "title".toList
  | .LISTING => some "listing".toList
  | .XMP => some "xmp".toList
  | _ => none

/-- `_RcdataEndTagTransition(regex)`: exit from RCDATA elements; applicable
only when the matched tag name equals the enclosing element's name. -/
def _RcdataEndTagTransition (search : List Char → Option SMatch) : Transition :=
  { search := search
    is_applicable_to := fun prior m =>
      match elementTagName (element_type_of prior) with
      | some nm => lowerStr (m.g1.getD []) = nm
      | none => false
    compute_next_context := fun _ _ =>
      .ok ⟨.TAG, .NONE, .NONE, .NONE, .NONE, .REGEX⟩ }

/-- `_CssUriTransition(regex)`: enter `url(...)`; the state depends on the
delimiter captured in group 1. -/
def _CssUriTransition (search : List Char → Option SMatch) : Transition :=
  { search := search
    compute_next_context := fun prior m =>
      let delim := m.g1.getD []
      let state : State :=
        if delim = ['"'] then .CSSDQ_URL
        else if delim = ['\''] then .CSSSQ_URL
        else .CSS_URL
      .ok { prior with state := state, urlPart := .NONE } }

/-- `_DivPreceder(regex)`:
`(prior & ~(STATE_ALL | JS_CTX_ALL)) | STATE_JS | JS_CTX_DIV_OP`. -/
def _DivPreceder (search : List Char → Option SMatch) : Transition :=
  { search := search
    compute_next_context := fun prior _ =>
      .ok { prior with state := .JS, jsCtx := .DIV_OP } }

end Autoesc

namespace Autoesc

/-- `[\n\f\r]` (CSS newline class). -/
def isCssNl (c : Char) : Bool := c = '\n' || c = '\x0c' || c = '\r'

/-- The per-state transition table `_TRANSITIONS` of `context_update.py`,
in source order (rule order is the earliest-match tie-break).
`STATE_ERROR` has no entry in the source (`None`); it is never consulted
because `_process_next_token` returns early on error contexts. -/
def _TRANSITIONS : State → List Transition
  | .TEXT =>
    [_TransitionToSelf search_text_chunk,
     _NormalizeTransition (_ToTransition (searchLit "<!--".toList) (bareCtx .HTMLCMT)) [],
     _ToTagTransition (searchTagOpenCI "script".toList) ⟨.TAG, .SCRIPT, .NONE, .NONE, .NONE, .REGEX⟩,
     _ToTagTransition (searchTagOpenCI "style".toList) ⟨.TAG, .STYLE, .NONE, .NONE, .NONE, .REGEX⟩,
     _ToTagTransition (searchTagOpenCI "textarea".toList) ⟨.TAG, .TEXTAREA, .NONE, .NONE, .NONE, .REGEX⟩,
     _ToTagTransition (searchTagOpenCI "title".toList) ⟨.TAG, .TITLE, .NONE, .NONE, .NONE, .REGEX⟩,
     _ToTagTransition (searchTagOpenCI "xmp".toList) ⟨.TAG, .XMP, .NONE, .NONE, .NONE, .REGEX⟩,
     _NormalizeTransition (_TransitionToSelf search_lt_bang_norm) "&lt;".toList,
     _ToTagTransition (searchLit "</".toList) ⟨.HTML_BEFORE_TAG_NAME, .CLOSE, .NONE, .NONE, .NONE, .REGEX⟩,
     _ToTransition (searchLit "<".toList) (bareCtx .HTML_BEFORE_TAG_NAME)]
  | .RCDATA =>
    [_RcdataEndTagTransition search_rcdata_end_tag,
     _NormalizeTransition (_TransitionToSelf (searchLit "<".toList)) "&lt;".toList,
     _TRANSITION_TO_SELF]
  | .HTML_BEFORE_TAG_NAME =>
    [_ToTagTransition search_tag_name_start (bareCtx .TAG_NAME),
     _ToTransition search_not_tag_name (bareCtx .TEXT)]
  | .TAG_NAME =>
    [_TransitionToSelf search_tag_name_rest,
     _ToTagTransition search_tag_name_done (bareCtx .TAG)]
  | .TAG =>
    [_TransitionToAttrName search_attr_name_g,
     _TagDoneTransition search_tag_done_pat,
     _TransitionToSelf search_ws_to_end]
  | .ATTR_NAME =>
    [_TransitionToSelf search_attr_name_chars,
     _TransitionToState search_eps .AFTER_NAME]
  | .AFTER_NAME =>
    [_TransitionToState search_ws_eq .BEFORE_VALUE,
     _TransitionToSelf search_ws1,
     _TransitionBackToTag search_eps]
  | .BEFORE_VALUE =>
    [_TransitionToAttrValue search_ws_dq .DOUBLE_QUOTE,
     _TransitionToAttrValue search_ws_sq .SINGLE_QUOTE,
     _TransitionToAttrValue search_unquoted_start .SPACE_OR_TAG_END,
     _NormalizeTransition (_TransitionBackToTag search_empty_value_end) ['"', '"'],
     _TransitionToSelf search_ws1]
  | .HTMLCMT =>
    [_NormalizeTransition (_ToTransition (searchLit "-->".toList) (bareCtx .TEXT)) [] true,
     _NormalizeTransition _TRANSITION_TO_SELF [] true]
  | .ATTR =>
    [_TRANSITION_TO_SELF]
  | .CSS =>
    [_NormalizeTransition (_TransitionToState (searchLit "/*".toList) .CSSBLOCK_CMT) [' '],
     _NormalizeTransition (_TransitionToState (searchLit "//".toList) .CSSLINE_CMT) [],
     _TransitionToState (searchCharClass (· == '"')) .CSSDQ_STR,
     _TransitionToState (searchCharClass (· == '\'')) .CSSSQ_STR,
     _CssUriTransition search_css_uri,
     _STYLE_TAG_END,
     _TRANSITION_TO_SELF]
  | .CSSBLOCK_CMT =>
    [_NormalizeTransition (_TransitionToState (searchLit "*/".toList) .CSS) [] true,
     _NormalizeTransition _STYLE_TAG_END "</style".toList true,
     _NormalizeTransition _TRANSITION_TO_SELF [] true]
  | .CSSLINE_CMT =>
    [_NormalizeTransition (_TransitionToState (searchCharClass isCssNl) .CSS) ['\n'] true,
     _NormalizeTransition _STYLE_TAG_END "</style".toList true,
     _NormalizeTransition _TRANSITION_TO_SELF [] true]
  | .CSSDQ_STR =>
    [_TransitionToState (searchCharClass (· == '"')) .CSS,
     _TransitionToSelf search_css_esc_dq,
     _CSSURL_PART_TRANSITION,
     _ToTransition (searchCharClass isCssNl) errorContext,
     _STYLE_TAG_END,
     _TRANSITION_TO_SELF]
  | .CSSSQ_STR =>
    [_TransitionToState (searchCharClass (· == '\'')) .CSS,
     _TransitionToSelf search_css_esc_sq,
     _CSSURL_PART_TRANSITION,
     _ToTransition (searchCharClass isCssNl) errorContext,
     _STYLE_TAG_END]
  | .CSS_URL =>
    [_TransitionToState (searchCharClass (fun c => c == '\\' || c == ')' || isPySpace c)) .CSS,
     _CSSURL_PART_TRANSITION,
     _TransitionToState (searchCharClass (fun c => c == '"' || c == '\'')) .ERROR,
     _STYLE_TAG_END]
  | .CSSSQ_URL =>
    [_TransitionToState (searchCharClass (· == '\'')) .CSS,
     _CSSURL_PART_TRANSITION,
     _TransitionToSelf search_css_esc_sq,
     _ToTransition (searchCharClass isCssNl) errorContext,
     _STYLE_TAG_END]
  | .CSSDQ_URL =>
    [_TransitionToState (searchCharClass (· == '"')) .CSS,
     _CSSURL_PART_TRANSITION,
     _TransitionToSelf search_css_esc_dq,
     _ToTransition (searchCharClass isCssNl) errorContext,
     _STYLE_TAG_END]
  | .JS =>
    [_NormalizeTransition (_TransitionToState (searchLit "/*".toList) .JSBLOCK_CMT) [' '],
     _NormalizeTransition (_TransitionToState (searchLit "//".toList) .JSLINE_CMT) [],
     _TransitionToJsString (searchCharClass (· == '"')) .JSDQ_STR,
     _TransitionToJsString (searchCharClass (· == '\'')) .JSSQ_STR,
     _SlashTransition (searchLit "/".toList),
     _JsPuncTransition search_js_punc,
     _TransitionToSelf search_ws_plus,
     _SCRIPT_TAG_END]
  | .JSBLOCK_CMT =>
    [_NormalizeJsBlockCommentTransition (_TransitionToState (searchLit "*/".toList) .JS),
     _NormalizeTransition _SCRIPT_TAG_END "</script".toList true,
     _NormalizeJsBlockCommentTransition _TRANSITION_TO_SELF]
  | .JSLINE_CMT =>
    [_NormalizeTransition (_TransitionToState (searchCharClass isJsNl) .JS) ['\n'] true,
     _NormalizeTransition _SCRIPT_TAG_END "</script".toList true,
     _NormalizeTransition _TRANSITION_TO_SELF [] true]
  | .JSDQ_STR =>
    [_DivPreceder (searchCharClass (· == '"')),
     _SCRIPT_TAG_END,
     _TransitionToSelf search_jsdq_body]
  | .JSSQ_STR =>
    [_DivPreceder (searchCharClass (· == '\'')),
     _SCRIPT_TAG_END,
     _TransitionToSelf search_jssq_body]
  | .JSREGEXP =>
    [_DivPreceder (searchLit "/".toList),
     _SCRIPT_TAG_END,
     _TransitionToSelf search_jsre_body]
  | .URL =>
    [_URL_PART_TRANSITION]
  | .ERROR => []

/-! ### The token scanner `_process_next_token` -/

/-- The selection loop of `_process_next_token`: walk the rules in table
order, keeping the applicable match with the strictly earliest start
(`earliest_start` begins at `len(text) + 1`). -/
def findEarliestAux (context : Context) (text : List Char) :
    List Transition → Nat → Option (Transition × SMatch) →
    Option (Transition × SMatch)
  | [], _, best => best
  | t :: rest, es, best =>
    match t.search text with
    | none => findEarliestAux context text rest es best
    | some m =>
      if m.start < es && t.is_applicable_to context m then
        findEarliestAux context text rest m.start (some (t, m))
      else
        findEarliestAux context text rest es best

def findEarliest (context : Context) (text : List Char) :
    Option (Transition × SMatch) :=
  findEarliestAux context text (_TRANSITIONS (state_of context))
    (text.length + 1) none

/-- The infinite-loop guard at the end of `_process_next_token`: a step
that consumed nothing and did not change the state raises. -/
def _inf_loop_check (context : Context) (num_consumed : Nat)
    (next_context : Context) (normalized_text : List Char) :
    Except PyError (Nat × Context × List Char) :=
  if num_consumed = 0 && state_of next_context = state_of context then
    .error .InfLoopError
  else .ok (num_consumed, next_context, normalized_text)

/-- `_process_next_token(text, context)`: consume a portion of text and
compute the next context.  On an error context, consume everything
unchanged.  Otherwise select the earliest applicable rule; with no rule,
consume everything and move to `STATE_ERROR`. -/
def _process_next_token (text : List Char) (context : Context) :
    Except PyError (Nat × Context × List Char) :=
  if is_error_context context then .ok (text.length, context, text)
  else
    match findEarliest context text with
    | some (t, m) =>
      match t.compute_next_context context m with
      | .ok next_context => _inf_loop_check context m.stop next_context (t.raw_text m)
      | .error e => .error e
    | none => _inf_loop_check context text.length errorContext text

/-! ### `_end_of_attr_value` and the driver loop -/

/-- First index satisfying a predicate (`re.search` of a character class,
returning `match.start(0)`). -/
def searchIdx (p : Char → Bool) : List Char → Option Nat
  | [] => none
  | c :: r => if p c then some 0 else (searchIdx p r).map (· + 1)

/-- Python `str.find`: first index where `needle` occurs, else `-1`. -/
def listFind (needle : List Char) : List Char → Int
  | [] => if startsWithCS needle [] then 0 else -1
  | s@(_ :: r) =>
    if startsWithCS needle s then 0
    else
      let v := listFind needle r
      if v < 0 then -1 else v + 1

/-- `_end_of_attr_value(raw_text, delim)`: the end of the attribute value,
`-1` if `delim` indicates we are not in an attribute, or `len(raw_text)`
if the end does not appear in `raw_text`. -/
def _end_of_attr_value (raw_text : List Char) (delim : Delim) : Int :=
  if delim = .NONE then -1
  else if delim = .SPACE_OR_TAG_END then
    match searchIdx (fun c => isPySpace c || c == '>') raw_text with
    | some i => (i : Int)
    | none => (raw_text.length : Int)
  else
    let quote := listFind (DELIM_TEXT delim) raw_text
    if quote ≥ 0 then quote else (raw_text.length : Int)

/-! ### Context union and the epsilon transition -/

/-- Modelled from the spec (4.1): `force_epsilon_transition(ctx)` of
`autoesc.context` (absent from the sources): apply any rule of the current
state whose pattern matches the zero-length input and is applicable
(selected as the scanner selects), returning the resulting context, or the
input context unchanged when no rule matches (or the rule fails). -/
def force_epsilon_transition (context : Context) : Context :=
  match findEarliest context [] with
  | some (t, m) =>
    match t.compute_next_context context m with
    | .ok c => c
    | .error _ => context
  | none => context

/-- Recursion rank for `context_union`: the epsilon-transition chain
`ATTR_NAME → AFTER_NAME → TAG` strictly descends. -/
def epsRank : State → Nat
  | .ATTR_NAME => 2
  | .AFTER_NAME => 1
  | _ => 0

/-- `context_union(context0, context1)` with explicit recursion fuel; the
epsilon-nudging recursion strictly decreases `epsRank`, so fuel 5 (more
than the largest possible `epsRank` sum) never runs out. -/
def context_union_fuel : Nat → Context → Context → Context
  | 0, _, _ => errorContext
  | n + 1, context0, context1 =>
    if context0 = context1 then context0
    else if context0 = { context1 with jsCtx := js_ctx_of context0 } then
      { context0 with jsCtx := .UNKNOWN }
    else if context0 = { context1 with urlPart := url_part_of context0 } then
      { context0 with urlPart := .UNKNOWN }
    else
      let ncontext0 := force_epsilon_transition context0
      let ncontext1 := force_epsilon_transition context1
      if context0 ≠ ncontext0 ∨ context1 ≠ ncontext1 then
        context_union_fuel n ncontext0 ncontext1
      else errorContext

/-- `context_union(context0, context1)`: a context consistent with both, or
`STATE_ERROR` when none exists. -/
def context_union (context0 context1 : Context) : Context :=
  context_union_fuel 5 context0 context1

/-! ### Collaborators of the driver loop (modelled from the spec) -/

def isHexDigit (c : Char) : Bool :=
  isAsciiDigit c || ('a' ≤ c && c ≤ 'f') || ('A' ≤ c && c ≤ 'F')

def hexVal (c : Char) : Nat :=
  if isAsciiDigit c then c.toNat - '0'.toNat
  else if 'a' ≤ c && c ≤ 'f' then c.toNat - 'a'.toNat + 10
  else if 'A' ≤ c && c ≤ 'F' then c.toNat - 'A'.toNat + 10
  else 0

def decodeCodepoint (n : Nat) : Option Char :=
  if n < 0xd800 ∨ (0xe000 ≤ n ∧ n < 0x110000) then some (Char.ofNat n)
  else none

/-- Modelled from the spec (4.7): one entity after a `&` for
`html.unescape_html` (module `autoesc.html`, absent from the sources):
a common named entity, `&#NNNN;`, or `&#xHH;`; returns the decoded
character and the consumed length. -/
def parseEntity (s : List Char) : Option (Char × Nat) :=
  if startsWithCS "amp;".toList s then some ('&', 4)
  else if startsWithCS "lt;".toList s then some ('<', 3)
  else if startsWithCS "gt;".toList s then some ('>', 3)
  else if startsWithCS "quot;".toList s then some ('"', 5)
  else if startsWithCS "apos;".toList s then some ('\'', 5)
  else
    match s with
    | '#' :: 'x' :: hs =>
      let ds := hs.takeWhile isHexDigit
      if ds ≠ [] && (hs.drop ds.length).head? = some ';' then
        (decodeCodepoint (ds.foldl (fun a c => a * 16 + hexVal c) 0)).map
          (fun c => (c, 2 + ds.length + 1))
      else none
    | '#' :: 'X' :: hs =>
      let ds := hs.takeWhile isHexDigit
      if ds ≠ [] && (hs.drop ds.length).head? = some ';' then
        (decodeCodepoint (ds.foldl (fun a c => a * 16 + hexVal c) 0)).map
          (fun c => (c, 2 + ds.length + 1))
      else none
    | '#' :: rest =>
      let ds := rest.takeWhile isAsciiDigit
      if ds ≠ [] && (rest.drop ds.length).head? = some ';' then
        (decodeCodepoint (ds.foldl (fun a c => a * 10 + hexVal c) 0)).map
          (fun c => (c, 1 + ds.length + 1))
      else none
    | _ => none

/-- Modelled from the spec: `html.unescape_html(s)`, permissive — an
unparseable `&` is copied through.  (Recursion made structural on a fuel
bounded by the length, since each step consumes at least one character.) -/
def unescapeHtmlF : Nat → List Char → List Char
  | _, [] => []
  | 0, s => s
  | fuel + 1, '&' :: r =>
    match parseEntity r with
    | some (c, k) => c :: unescapeHtmlF fuel (r.drop k)
    | none => '&' :: unescapeHtmlF fuel r
  | fuel + 1, c :: r => c :: unescapeHtmlF fuel r

def unescape_html (s : List Char) : List Char := unescapeHtmlF s.length s

/-- Modelled from the spec (4.7): `escaping.escape_html_dq_only(s)` —
minimal escaping sufficient for re-emitting into a double-quoted attribute
value. -/
def escape_html_dq_only : List Char → List Char
  | [] => []
  | c :: r =>
    (if c = '&' then "&amp;".toList
     else if c = '"' then "&quot;".toList
     else [c]) ++ escape_html_dq_only r

/-- Modelled from the spec (4.7): `escaping.escape_html_sq_only(s)`. -/
def escape_html_sq_only : List Char → List Char
  | [] => []
  | c :: r =>
    (if c = '&' then "&amp;".toList
     else if c = '\'' then "&#39;".toList
     else [c]) ++ escape_html_sq_only r

/-- The character class `[\x00"\'<=`]` of the unquoted-attribute check. -/
def isBadUnquotedChar (c : Char) : Bool :=
  c = '\x00' || c = '"' || c = '\'' || c = '<' || c = '=' || c = '`'

/-- A rendering of the Python error message
`'%r in unquoted attr: %r' % (bad.group(), raw_text[:attr_value_end])`. -/
def unquotedBadCharMsg (c : Char) (pre : List Char) : List Char :=
  '\'' :: c :: '\'' :: " in unquoted attr: '".toList ++ pre ++ ['\'']

/-- The result quadruple of `process_raw_text`: (context after, normalized
text or `None`, context before the error or `None`, unprocessed suffix at
the error or `None`). -/
def PRTResult :=
  Context × Option (List Char) × Option Context × Option (List Char)
deriving instance DecidableEq, Repr for PRTResult

/-- The inner `while attr_value_tail:` loop of `process_raw_text`:
recursively scan the entity-decoded attribute payload, writing the escaped
replacement text.  `Option` is the embedding's fuel artifact: `.ok none`
means the fuel ran out (proven unreachable below). -/
def innerAttrLoop (escaper : List Char → List Char) :
    Nat → List Char → Context → List Char →
    Except PyError (Option (Context × List Char))
  | _, [], context, normalized => .ok (some (context, normalized))
  | 0, _ :: _, _, _ => .ok none
  | fuel + 1, tail@(_ :: _), context, normalized =>
    match _process_next_token tail context with
    | .error e => .error e
    | .ok (num_consumed, c2, replacement) =>
      innerAttrLoop escaper fuel (tail.drop num_consumed) c2
        (normalized ++ escaper replacement)

/-- The `while raw_text:` loop of `process_raw_text`, with fuel. -/
def process_loop :
    Nat → List Char → Context → List Char → Except PyError (Option PRTResult)
  | _, [], context, normalized => .ok (some (context, some normalized, none, none))
  | 0, _ :: _, _, _ => .ok none
  | fuel + 1, raw@(_ :: _), context, normalized =>
    let prior_context := context
    let prior_raw_text := raw
    let delim_type := delim_type_of context
    let attr_value_end := _end_of_attr_value raw delim_type
    if attr_value_end = -1 then
      -- Outside an attribute value.  No need to decode.
      match _process_next_token raw context with
      | .error e => .error e
      | .ok (num_consumed, c2, replacement_text) =>
        let raw2 := raw.drop num_consumed
        let normalized2 := normalized ++ replacement_text ++
          (if delim_type_of c2 = .SPACE_OR_TAG_END then ['"'] else [])
        if is_error_context c2 then
          .ok (some (c2, none, some prior_context, some prior_raw_text))
        else process_loop fuel raw2 c2 normalized2
    else
      -- Inside an attribute value.  Find the end and decode up to it.
      let ave := attr_value_end.toNat
      match (if delim_type = .SPACE_OR_TAG_END then
               (raw.take ave).find? isBadUnquotedChar
             else none) with
      | some bad =>
        .error (.ContextUpdateFailure (unquotedBadCharMsg bad (raw.take ave)))
      | none =>
        let attr_end : Int :=
          if attr_value_end < (raw.length : Int) then
            attr_value_end + (DELIM_TEXT delim_type).length
          else -1
        let attr_value_tail := unescape_html (raw.take ave)
        let escaper :=
          if delim_type = .SINGLE_QUOTE then escape_html_sq_only
          else escape_html_dq_only
        match innerAttrLoop escaper (3 * attr_value_tail.length + 4)
            attr_value_tail context normalized with
        | .error e => .error e
        | .ok none => .ok none
        | .ok (some (c2, normalized2)) =>
          if attr_end ≠ -1 then
            let raw2 := raw.drop attr_end.toNat
            let c3 : Context :=
              ⟨.TAG, element_type_of c2, .NONE, .NONE, .NONE, .REGEX⟩
            let normalized3 := normalized2 ++
              [if delim_type = .SINGLE_QUOTE then '\'' else '"']
            if is_error_context c3 then
              .ok (some (c3, none, some prior_context, some prior_raw_text))
            else process_loop fuel raw2 c3 normalized3
          else
            if (ave : Int) ≠ (raw.length : Int) then .error .AssertionFailure
            else if is_error_context c2 then
              .ok (some (c2, none, some prior_context, some prior_raw_text))
            else process_loop fuel [] c2 normalized2

/-- `process_raw_text(raw_text, context)`: process a chunk of HTML/CSS/JS,
returning the context after it, a normalized version of the text (or
`None` with the pre-error context and unprocessed suffix), and possibly
raising `ContextUpdateFailure`.  The fuel `3 * len + 4` strictly dominates
the loop measure (proven below), so `.ok none` is unreachable. -/
def process_raw_text (raw_text : List Char) (context : Context) :
    Except PyError (Option PRTResult) :=
  process_loop (3 * raw_text.length + 4) raw_text context []

end Autoesc


namespace Autoesc

/-! ### The scanner's selection policy, stated from the spec's words

`scanCandidates` lists the rules of the current state whose pattern matches
and whose `is_applicable_to` holds, with their matches; `selectEarliest`
picks the one with the minimum match start, ties broken toward the earlier
table position (a stable minimum). -/

def candList (context : Context) (text : List Char)
    (rules : List Transition) : List (Transition × SMatch) :=
  rules.filterMap fun t =>
    match t.search text with
    | some m => if t.is_applicable_to context m then some (t, m) else none
    | none => none

def scanCandidates (context : Context) (text : List Char) :
    List (Transition × SMatch) :=
  candList context text (_TRANSITIONS (state_of context))

def selectEarliest : List (Transition × SMatch) → Option (Transition × SMatch)
  | [] => none
  | x :: xs =>
    match selectEarliest xs with
    | none => some x
    | some y => if y.2.start < x.2.start then some y else some x

lemma selectEarliest_cons (x : Transition × SMatch) (l) :
    selectEarliest (x :: l) =
      match selectEarliest l with
      | none => some x
      | some y => if y.2.start < x.2.start then some y else some x := rfl

lemma selectEarliest_cons_isSome (x : Transition × SMatch) (l) :
    (selectEarliest (x :: l)).isSome := by
  rw [selectEarliest_cons]
  cases hl : selectEarliest l with
  | none => rfl
  | some y =>
    dsimp only
    split <;> rfl

lemma selectEarliest_start_le (x : Transition × SMatch) (l)
    (z : Transition × SMatch) (h : selectEarliest (x :: l) = some z) :
    z.2.start ≤ x.2.start := by
  rw [selectEarliest_cons] at h
  cases hl : selectEarliest l with
  | none =>
    rw [hl] at h
    dsimp only at h
    cases h
    exact Nat.le_refl _
  | some y =>
    rw [hl] at h
    dsimp only at h
    split at h
    · cases h; omega
    · cases h; exact Nat.le_refl _

lemma selectEarliest_skip (y c : Transition × SMatch) (l)
    (h : y.2.start ≤ c.2.start) :
    selectEarliest (y :: c :: l) = selectEarliest (y :: l) := by
  cases hl : selectEarliest l with
  | none =>
    have h1 : selectEarliest (c :: l) = some c := by
      rw [selectEarliest_cons, hl]
    rw [selectEarliest_cons, h1, selectEarliest_cons, hl]
    dsimp only
    rw [if_neg (by omega)]
  | some z =>
    have h1 : selectEarliest (c :: l)
        = if z.2.start < c.2.start then some z else some c := by
      rw [selectEarliest_cons, hl]
    by_cases hzc : z.2.start < c.2.start
    · rw [selectEarliest_cons, h1, if_pos hzc, selectEarliest_cons, hl]
    · rw [selectEarliest_cons, h1, if_neg hzc, selectEarliest_cons, hl]
      dsimp only
      rw [if_neg (by omega), if_neg (by omega)]

lemma selectEarliest_pick (y c : Transition × SMatch) (l)
    (h : c.2.start < y.2.start) :
    selectEarliest (y :: c :: l) = selectEarliest (c :: l) := by
  cases hc : selectEarliest (c :: l) with
  | none =>
    have := selectEarliest_cons_isSome c l
    rw [hc] at this
    cases this
  | some z =>
    have hz := selectEarliest_start_le c l z hc
    rw [selectEarliest_cons, hc]
    dsimp only
    rw [if_pos (by omega)]

/-- The selection loop computes the spec's stable minimum, given the
running-threshold invariants (the threshold equals the accumulated best's
start; with no best yet, every candidate of the remaining rules starts
below the threshold). -/
lemma findEarliestAux_eq_selectEarliest (context : Context) (text : List Char) :
    ∀ (rules : List Transition) (es : Nat)
      (best : Option (Transition × SMatch)),
      (∀ y, best = some y → y.2.start = es) →
      (best = none → ∀ t ∈ rules, ∀ m, t.search text = some m →
        t.is_applicable_to context m = true → m.start < es) →
      findEarliestAux context text rules es best
        = selectEarliest (best.toList ++ candList context text rules) := by
  intro rules
  induction rules with
  | nil =>
    intro es best _ _
    cases best with
    | none => rfl
    | some y => rfl
  | cons t rest ih =>
    intro es best hbest hnone
    simp only [findEarliestAux]
    cases hs : t.search text with
    | none =>
      have hc : candList context text (t :: rest)
          = candList context text rest := by
        simp [candList, List.filterMap_cons, hs]
      rw [hc]
      exact ih es best hbest
        (fun hb t' ht' m hm ha => hnone hb t' (List.mem_cons_of_mem _ ht') m hm ha)
    | some m =>
      dsimp only
      cases ha : t.is_applicable_to context m with
      | false =>
        have hc : candList context text (t :: rest)
            = candList context text rest := by
          simp [candList, List.filterMap_cons, hs, ha]
        rw [Bool.and_false, hc, if_neg (by simp)]
        exact ih es best hbest
          (fun hb t' ht' m' hm ha' => hnone hb t' (List.mem_cons_of_mem _ ht') m' hm ha')
      | true =>
        have hc : candList context text (t :: rest)
            = (t, m) :: candList context text rest := by
          simp [candList, List.filterMap_cons, hs, ha]
        rw [Bool.and_true, hc]
        by_cases hlt : m.start < es
        · rw [if_pos (by simpa using hlt)]
          rw [ih m.start (some (t, m)) (by intro y hy; cases hy; rfl)
            (by intro hcon; cases hcon)]
          cases best with
          | none => rfl
          | some y =>
            have hy : y.2.start = es := hbest y rfl
            show selectEarliest ((t, m) :: candList context text rest)
              = selectEarliest (y :: (t, m) :: candList context text rest)
            rw [selectEarliest_pick y (t, m) _ (by simpa [hy] using hlt)]
        · rw [if_neg (by simpa using hlt)]
          cases best with
          | none =>
            exact absurd (hnone rfl t (List.mem_cons_self _ _) m hs ha) hlt
          | some y =>
            have hy : y.2.start = es := hbest y rfl
            rw [ih es (some y) hbest (by intro hcon; cases hcon)]
            show selectEarliest (y :: candList context text rest)
              = selectEarliest (y :: (t, m) :: candList context text rest)
            rw [selectEarliest_skip y (t, m) _
              (by simp only [not_lt] at hlt; simpa [hy] using hlt)]

/-- The selection loop only returns the accumulator or a searched,
applicable pair from the rule list. -/
lemma findEarliestAux_mem (context : Context) (text : List Char) :
    ∀ (rules : List Transition) (es : Nat)
      (best : Option (Transition × SMatch)) (t : Transition) (m : SMatch),
      findEarliestAux context text rules es best = some (t, m) →
      best = some (t, m) ∨
        (t ∈ rules ∧ t.search text = some m ∧
          t.is_applicable_to context m = true) := by
  intro rules
  induction rules with
  | nil =>
    intro es best t m h
    exact Or.inl h
  | cons r rest ih =>
    intro es best t m h
    simp only [findEarliestAux] at h
    cases hs : r.search text with
    | none =>
      rw [hs] at h
      rcases ih es best t m h with h' | ⟨h1, h2, h3⟩
      · exact Or.inl h'
      · exact Or.inr ⟨List.mem_cons_of_mem _ h1, h2, h3⟩
    | some m' =>
      rw [hs] at h
      dsimp only at h
      by_cases hc : (decide (m'.start < es) && r.is_applicable_to context m') = true
      · rw [if_pos hc] at h
        rcases ih _ _ t m h with h' | ⟨h1, h2, h3⟩
        · rcases Option.some.inj h' with h''
          rcases Prod.mk.injEq .. ▸ h'' with ⟨rfl, rfl⟩
          rw [Bool.and_eq_true] at hc
          exact Or.inr ⟨List.mem_cons_self _ _, hs, hc.2⟩
        · exact Or.inr ⟨List.mem_cons_of_mem _ h1, h2, h3⟩
      · rw [if_neg hc] at h
        rcases ih es best t m h with h' | ⟨h1, h2, h3⟩
        · exact Or.inl h'
        · exact Or.inr ⟨List.mem_cons_of_mem _ h1, h2, h3⟩

end Autoesc

namespace Autoesc

/-! ### Bounds on the embedded searchers: starts are within the subject,
and every non-zero-width pattern consumes at least one character. -/

def StartBound (f : List Char → Option SMatch) : Prop :=
  ∀ text m, f text = some m → m.start ≤ text.length

def StopPos (f : List Char → Option SMatch) : Prop :=
  ∀ text m, f text = some m → text ≠ [] → 1 ≤ m.stop

lemma searchFrom_start_le (f : List Char → Option (Nat × Option (List Char)))
    (text : List Char) :
    ∀ (s : List Char) (i : Nat) (m : SMatch),
      searchFrom f text i s = some m → m.start ≤ i + s.length := by
  intro s
  induction s with
  | nil =>
    intro i m h
    simp only [searchFrom] at h
    cases hf0 : f [] with
    | none => rw [hf0] at h; cases h
    | some lg =>
      obtain ⟨len, g⟩ := lg
      rw [hf0] at h
      dsimp only at h
      cases h
      simp
  | cons c rest ih =>
    intro i m h
    simp only [searchFrom] at h
    cases hf0 : f (c :: rest) with
    | none =>
      rw [hf0] at h
      dsimp only at h
      have := ih (i + 1) m h
      simp only [List.length_cons]
      omega
    | some lg =>
      obtain ⟨len, g⟩ := lg
      rw [hf0] at h
      dsimp only at h
      cases h
      simp

lemma searchFrom_stop_pos (f : List Char → Option (Nat × Option (List Char)))
    (text : List Char)
    (hf : ∀ s l g, s ≠ [] → f s = some (l, g) → 1 ≤ l) :
    ∀ (s : List Char) (i : Nat) (m : SMatch), i + s.length = text.length →
      searchFrom f text i s = some m → text ≠ [] → 1 ≤ m.stop := by
  intro s
  induction s with
  | nil =>
    intro i m hlen h hne
    simp only [searchFrom] at h
    cases hf0 : f [] with
    | none => rw [hf0] at h; cases h
    | some lg =>
      obtain ⟨len, g⟩ := lg
      rw [hf0] at h
      dsimp only at h
      cases h
      have h0 : text.length ≠ 0 := fun h0 => hne (List.length_eq_zero.mp h0)
      simp only [List.length_nil] at hlen
      simp
      omega
  | cons c rest ih =>
    intro i m hlen h hne
    simp only [searchFrom] at h
    cases hf0 : f (c :: rest) with
    | none =>
      rw [hf0] at h
      dsimp only at h
      exact ih (i + 1) m (by simp only [List.length_cons] at hlen; omega) h hne
    | some lg =>
      obtain ⟨len, g⟩ := lg
      rw [hf0] at h
      dsimp only at h
      cases h
      have := hf (c :: rest) len g (by simp) (by rw [hf0])
      simp
      omega

lemma startBound_searchPat (f : List Char → Option (Nat × Option (List Char))) :
    StartBound (searchPat f) := by
  intro text m h
  simpa using searchFrom_start_le f text text 0 m h

lemma startBound_searchAnchored
    (f : List Char → Option (Nat × Option (List Char))) :
    StartBound (searchAnchored f) := by
  intro text m h
  unfold searchAnchored at h
  cases hf0 : f text with
  | none => rw [hf0] at h; cases h
  | some lg => rw [hf0] at h; cases h; exact Nat.zero_le _

lemma startBound_searchEndZ : StartBound searchEndZ := by
  intro text m h
  cases h
  exact Nat.le_refl _

lemma startBound_searchPatOrEnd
    (f : List Char → Option (Nat × Option (List Char))) :
    StartBound (searchPatOrEnd f) := by
  intro text m h
  unfold searchPatOrEnd at h
  cases hs : searchPat f text with
  | none => rw [hs] at h; cases h; exact Nat.le_refl _
  | some m' => rw [hs] at h; cases h; exact startBound_searchPat f text _ hs

lemma startBound_zeroWidth (f : List Char → Option SMatch)
    (hz : ∀ text m, f text = some m → m.start = 0) : StartBound f := by
  intro text m h
  rw [hz text m h]
  exact Nat.zero_le _

lemma zero_not_tag_name :
    ∀ text m, search_not_tag_name text = some m → m.start = 0 := by
  intro text m h
  unfold search_not_tag_name at h
  split at h
  · split at h
    · cases h
    · cases h; rfl
  · cases h

lemma zero_tag_name_done :
    ∀ text m, search_tag_name_done text = some m → m.start = 0 := by
  intro text m h
  unfold search_tag_name_done at h
  split at h
  · split at h
    · cases h; rfl
    · cases h
  · cases h

lemma zero_search_eps :
    ∀ text m, search_eps text = some m → m.start = 0 := by
  intro text m h
  cases h
  rfl

lemma zero_unquoted_start :
    ∀ text m, search_unquoted_start text = some m → m.start = 0 := by
  intro text m h
  unfold search_unquoted_start at h
  split at h
  · split at h
    · cases h
    · cases h; rfl
  · cases h

lemma zero_empty_value_end :
    ∀ text m, search_empty_value_end text = some m → m.start = 0 := by
  intro text m h
  unfold search_empty_value_end at h
  split at h
  · cases h; rfl
  · cases h; rfl
  · cases h

lemma searchCssUriFrom_start_le (text : List Char) :
    ∀ (s : List Char) (i : Nat) (pw : Bool) (m : SMatch),
      searchCssUriFrom text i pw s = some m → m.start ≤ i + s.length := by
  intro s
  induction s with
  | nil => intro i pw m h; cases h
  | cons c rest ih =>
    intro i pw m h
    simp only [searchCssUriFrom] at h
    cases hu : (if pw then none else cssUriAt (c :: rest)) with
    | none =>
      rw [hu] at h
      dsimp only at h
      have := ih (i + 1) (isWordChar c) m h
      simp only [List.length_cons]
      omega
    | some lg =>
      obtain ⟨len, g⟩ := lg
      rw [hu] at h
      dsimp only at h
      cases h
      simp

lemma startBound_css_uri : StartBound search_css_uri := by
  intro text m h
  simpa using searchCssUriFrom_start_le text text 0 false m h

lemma cssUriAt_pos :
    ∀ s l g, cssUriAt s = some (l, g) → 1 ≤ l := by
  intro s l g h
  unfold cssUriAt at h
  split at h
  · try dsimp only at h
    split at h
    · try dsimp only at h
      split at h
      · cases h; omega
      · cases h; omega
      · cases h; omega
    · cases h
  · cases h

lemma stopPos_css_uri_aux (text : List Char) :
    ∀ (s : List Char) (i : Nat) (pw : Bool) (m : SMatch),
      searchCssUriFrom text i pw s = some m → 1 ≤ m.stop := by
  intro s
  induction s with
  | nil => intro i pw m h; cases h
  | cons c rest ih =>
    intro i pw m h
    simp only [searchCssUriFrom] at h
    cases hu : (if pw then none else cssUriAt (c :: rest)) with
    | none =>
      rw [hu] at h
      dsimp only at h
      exact ih (i + 1) (isWordChar c) m h
    | some lg =>
      obtain ⟨len, g⟩ := lg
      rw [hu] at h
      dsimp only at h
      cases h
      have h1 : 1 ≤ len := by
        cases pw with
        | true => rw [if_pos rfl] at hu; cases hu
        | false =>
          rw [if_neg (by simp)] at hu
          exact cssUriAt_pos _ _ _ hu
      simp
      omega

lemma stopPos_css_uri : StopPos search_css_uri := by
  intro text m h _
  exact stopPos_css_uri_aux text text 0 false m h

lemma stopPos_searchPat (f : List Char → Option (Nat × Option (List Char)))
    (hf : ∀ s l g, s ≠ [] → f s = some (l, g) → 1 ≤ l) :
    StopPos (searchPat f) := by
  intro text m h hne
  exact searchFrom_stop_pos f text hf text 0 m (by simp) h hne

lemma stopPos_searchAnchored
    (f : List Char → Option (Nat × Option (List Char)))
    (hf : ∀ s l g, s ≠ [] → f s = some (l, g) → 1 ≤ l) :
    StopPos (searchAnchored f) := by
  intro text m h hne
  unfold searchAnchored at h
  cases hf0 : f text with
  | none => rw [hf0] at h; cases h
  | some lg =>
    obtain ⟨len, g⟩ := lg
    rw [hf0] at h
    cases h
    simpa using hf text len g hne (by rw [hf0])

lemma stopPos_searchEndZ : StopPos searchEndZ := by
  intro text m h hne
  cases h
  cases text with
  | nil => exact absurd rfl hne
  | cons c r => simp

lemma stopPos_searchPatOrEnd
    (f : List Char → Option (Nat × Option (List Char)))
    (hf : ∀ s l g, s ≠ [] → f s = some (l, g) → 1 ≤ l) :
    StopPos (searchPatOrEnd f) := by
  intro text m h hne
  unfold searchPatOrEnd at h
  cases hs : searchPat f text with
  | none =>
    rw [hs] at h
    cases h
    cases text with
    | nil => exact absurd rfl hne
    | cons c r => simp
  | some m' =>
    rw [hs] at h
    cases h
    exact stopPos_searchPat f hf text _ hs hne

/-- Generic positivity for the `if n = 0 then none else some (n, none)`
matcher shape. -/
lemma hf_posCount (g : List Char → Nat) :
    ∀ (s : List Char) (l : Nat) (go : Option (List Char)), s ≠ [] →
      (if g s = 0 then none
       else some (g s, (none : Option (List Char)))) = some (l, go) →
      1 ≤ l := by
  intro s l go _ h
  split at h
  · cases h
  · cases h; omega

/-- The table-wide start bound: every match found by any rule of any state
starts within the subject. -/
lemma table_start_bound (s : State) (t : Transition)
    (ht : t ∈ _TRANSITIONS s) (text : List Char) (m : SMatch)
    (hm : t.search text = some m) : m.start ≤ text.length := by
  cases s <;> simp only [_TRANSITIONS] at ht <;> fin_cases ht <;>
    simp only [_TRANSITION_TO_SELF, _SCRIPT_TAG_END, _STYLE_TAG_END,
      _URL_PART_TRANSITION, _CSSURL_PART_TRANSITION, _TransitionToSelf,
      _ToTransition, _ToTagTransition, _NormalizeTransition,
      _NormalizeJsBlockCommentTransition, _TagDoneTransition,
      _TransitionBackToTag, _TransitionToAttrName, _TransitionToAttrValue,
      _TransitionToState, _TransitionToJsString, _SlashTransition,
      _JsPuncTransition, _URLPartTransition, _EndTagTransition,
      _RcdataEndTagTransition, _CssUriTransition, _DivPreceder] at hm <;>
    first
      | exact startBound_searchPat _ _ _ hm
      | exact startBound_searchAnchored _ _ _ hm
      | exact startBound_searchEndZ _ _ hm
      | exact startBound_searchPatOrEnd _ _ _ hm
      | exact startBound_css_uri _ _ hm
      | exact startBound_zeroWidth _ zero_not_tag_name _ _ hm
      | exact startBound_zeroWidth _ zero_tag_name_done _ _ hm
      | exact startBound_zeroWidth _ zero_search_eps _ _ hm
      | exact startBound_zeroWidth _ zero_unquoted_start _ _ hm
      | exact startBound_zeroWidth _ zero_empty_value_end _ _ hm

end Autoesc

namespace Autoesc

/-! ### Positivity instances: every non-zero-width rule pattern consumes at
least one character when it matches a nonempty subject. -/

lemma sp_text_chunk : StopPos search_text_chunk :=
  stopPos_searchAnchored _ (hf_posCount _)

lemma sp_tag_name_start : StopPos search_tag_name_start :=
  stopPos_searchAnchored _ (hf_posCount _)

lemma sp_attr_name_chars : StopPos search_attr_name_chars :=
  stopPos_searchPat _ (hf_posCount _)

lemma sp_ws1 : StopPos search_ws1 :=
  stopPos_searchAnchored _ (hf_posCount _)

lemma sp_ws_plus : StopPos search_ws_plus :=
  stopPos_searchPat _ (hf_posCount _)

lemma sp_js_punc : StopPos search_js_punc :=
  stopPos_searchPat _ (hf_posCount _)

lemma sp_jsdq_body : StopPos search_jsdq_body :=
  stopPos_searchAnchored _ (hf_posCount _)

lemma sp_jssq_body : StopPos search_jssq_body :=
  stopPos_searchAnchored _ (hf_posCount _)

lemma sp_jsre_body : StopPos search_jsre_body :=
  stopPos_searchAnchored _ (hf_posCount _)

lemma sp_searchLit (lit : List Char) (hl : lit ≠ []) :
    StopPos (searchLit lit) := by
  refine stopPos_searchPat _ ?_
  intro s l g _ h
  split at h
  · cases h
    simpa using List.length_pos.mpr hl
  · cases h

lemma sp_searchCharClass (p : Char → Bool) : StopPos (searchCharClass p) := by
  refine stopPos_searchPat _ ?_
  intro s l g hs h
  cases s with
  | nil => cases h
  | cons c r =>
    try dsimp only at h
    split at h
    · cases h; omega
    · cases h

lemma sp_tagOpenCI (nm : List Char) : StopPos (searchTagOpenCI nm) := by
  refine stopPos_searchPat _ ?_
  intro s l g _ h
  cases s with
  | nil => cases h
  | cons c r =>
    try dsimp only at h
    split at h
    · split at h
      · split at h
        · cases h; omega
        · split at h
          · cases h
          · cases h; omega
      · cases h
    · cases h

lemma sp_lt_bang : StopPos search_lt_bang_norm := by
  refine stopPos_searchPat _ ?_
  intro s l g _ h
  cases s with
  | nil => cases h
  | cons c r =>
    try dsimp only at h
    split at h
    · split at h
      · cases h
      · cases h; omega
    · cases h

lemma sp_rcdata_end : StopPos search_rcdata_end_tag := by
  refine stopPos_searchPat _ ?_
  intro s l g _ h
  split at h
  · try dsimp only at h
    split at h
    · cases h
    · cases h; omega
  · cases h

lemma sp_tag_name_rest : StopPos search_tag_name_rest := by
  refine stopPos_searchAnchored _ ?_
  intro s l g hs h
  try dsimp only at h
  split at h
  · cases h
    have := List.length_pos.mpr hs
    omega
  · split at h
    · cases h
    · cases h; omega

lemma sp_attr_name_g : StopPos search_attr_name_g := by
  refine stopPos_searchAnchored _ ?_
  intro s l g _ h
  try dsimp only at h
  split at h
  · split at h
    · cases h; omega
    · cases h
  · cases h

lemma sp_tag_done_pat : StopPos search_tag_done_pat := by
  refine stopPos_searchAnchored _ ?_
  intro s l g _ h
  try dsimp only at h
  split at h
  · cases h; omega
  · cases h; omega
  · cases h

lemma sp_ws_to_end : StopPos search_ws_to_end := by
  refine stopPos_searchAnchored _ ?_
  intro s l g hs h
  split at h
  · cases h
    have := List.length_pos.mpr hs
    omega
  · cases h

lemma sp_ws_eq : StopPos search_ws_eq := by
  refine stopPos_searchAnchored _ ?_
  intro s l g _ h
  try dsimp only at h
  split at h
  · cases h; omega
  · cases h

lemma sp_ws_dq : StopPos search_ws_dq := by
  refine stopPos_searchAnchored _ ?_
  intro s l g _ h
  try dsimp only at h
  split at h
  · cases h; omega
  · cases h

lemma sp_ws_sq : StopPos search_ws_sq := by
  refine stopPos_searchAnchored _ ?_
  intro s l g _ h
  try dsimp only at h
  split at h
  · cases h; omega
  · cases h

lemma sp_style_end : StopPos search_style_end := by
  refine stopPos_searchPat _ ?_
  intro s l g _ h
  split at h
  · split at h
    · cases h; omega
    · split at h
      · cases h
      · cases h; omega
  · cases h

lemma sp_script_end : StopPos search_script_end := by
  refine stopPos_searchPat _ ?_
  intro s l g _ h
  split at h
  · split at h
    · cases h; omega
    · split at h
      · cases h
      · cases h; omega
  · cases h

lemma sp_css_esc_dq : StopPos search_css_esc_dq := by
  refine stopPos_searchPat _ ?_
  intro s l g _ h
  split at h <;> first | (cases h; omega) | cases h

lemma sp_css_esc_sq : StopPos search_css_esc_sq := by
  refine stopPos_searchPat _ ?_
  intro s l g _ h
  split at h <;> first | (cases h; omega) | cases h

lemma sp_css_url_part : StopPos search_css_url_part := by
  refine stopPos_searchPatOrEnd _ ?_
  intro s l g _ h
  unfold cssUrlPartAt at h
  split at h <;> first | (cases h; omega) | cases h

lemma sp_url_part : StopPos search_url_part := by
  refine stopPos_searchPatOrEnd _ ?_
  intro s l g _ h
  split at h <;> first | (cases h; omega) | cases h

lemma sp_endZ : StopPos searchEndZ := stopPos_searchEndZ

end Autoesc

namespace Autoesc

/-- Rank of a state under zero-width transitions: the chains
`ATTR_NAME → AFTER_NAME → TAG`, `BEFORE_VALUE → TAG` / attribute-value
states, `TAG_NAME → TAG`, `HTML_BEFORE_TAG_NAME → TEXT` strictly
descend. -/
def stateRank : State → Nat
  | .ATTR_NAME => 2
  | .BEFORE_VALUE => 2
  | .AFTER_NAME => 1
  | .TAG_NAME => 1
  | .HTML_BEFORE_TAG_NAME => 1
  | _ => 0

/-- Any rule of the table that matches a nonempty input with a zero-width
match (`m.stop = 0`) moves to a strictly lower-ranked state; moreover it
leaves the delimiter alone or clears it, except for the unquoted-value
entry out of `BEFORE_VALUE`. -/
lemma scan_zero_step (text : List Char) (c c2 : Context) (t : Transition)
    (m : SMatch) (hne : text ≠ []) (hmem : t ∈ _TRANSITIONS c.state)
    (hs : t.search text = some m)
    (hok : t.compute_next_context c m = .ok c2) (h0 : m.stop = 0) :
    stateRank c2.state < stateRank c.state ∧
      (c2.delim = .NONE ∨ c2.delim = c.delim ∨ c.state = .BEFORE_VALUE) := by
  obtain ⟨cs, cel, cat, cdl, cup, cjs⟩ := c
  cases cs <;> simp only [_TRANSITIONS] at hmem <;> fin_cases hmem <;>
    simp only [_TRANSITION_TO_SELF, _SCRIPT_TAG_END, _STYLE_TAG_END,
      _URL_PART_TRANSITION, _CSSURL_PART_TRANSITION, _TransitionToSelf,
      _ToTransition, _ToTagTransition, _NormalizeTransition,
      _NormalizeJsBlockCommentTransition, _TagDoneTransition,
      _TransitionBackToTag, _TransitionToAttrName, _TransitionToAttrValue,
      _TransitionToState, _TransitionToJsString, _SlashTransition,
      _JsPuncTransition, _URLPartTransition, _EndTagTransition,
      _RcdataEndTagTransition, _CssUriTransition, _DivPreceder] at hs hok <;>
    first
      | exact absurd (sp_text_chunk _ _ hs hne) (by omega)
      | exact absurd (sp_searchLit _ (by decide) _ _ hs hne) (by omega)
      | exact absurd (sp_tagOpenCI _ _ _ hs hne) (by omega)
      | exact absurd (sp_lt_bang _ _ hs hne) (by omega)
      | exact absurd (sp_rcdata_end _ _ hs hne) (by omega)
      | exact absurd (sp_endZ _ _ hs hne) (by omega)
      | exact absurd (sp_tag_name_start _ _ hs hne) (by omega)
      | exact absurd (sp_tag_name_rest _ _ hs hne) (by omega)
      | exact absurd (sp_attr_name_g _ _ hs hne) (by omega)
      | exact absurd (sp_tag_done_pat _ _ hs hne) (by omega)
      | exact absurd (sp_ws_to_end _ _ hs hne) (by omega)
      | exact absurd (sp_attr_name_chars _ _ hs hne) (by omega)
      | exact absurd (sp_ws_eq _ _ hs hne) (by omega)
      | exact absurd (sp_ws1 _ _ hs hne) (by omega)
      | exact absurd (sp_ws_dq _ _ hs hne) (by omega)
      | exact absurd (sp_ws_sq _ _ hs hne) (by omega)
      | exact absurd (sp_searchCharClass _ _ _ hs hne) (by omega)
      | exact absurd (stopPos_css_uri _ _ hs hne) (by omega)
      | exact absurd (sp_style_end _ _ hs hne) (by omega)
      | exact absurd (sp_script_end _ _ hs hne) (by omega)
      | exact absurd (sp_css_esc_dq _ _ hs hne) (by omega)
      | exact absurd (sp_css_esc_sq _ _ hs hne) (by omega)
      | exact absurd (sp_css_url_part _ _ hs hne) (by omega)
      | exact absurd (sp_url_part _ _ hs hne) (by omega)
      | exact absurd (sp_js_punc _ _ hs hne) (by omega)
      | exact absurd (sp_ws_plus _ _ hs hne) (by omega)
      | exact absurd (sp_jsdq_body _ _ hs hne) (by omega)
      | exact absurd (sp_jssq_body _ _ hs hne) (by omega)
      | exact absurd (sp_jsre_body _ _ hs hne) (by omega)
      | (cases hok; exact ⟨by simp [stateRank, bareCtx], Or.inl rfl⟩)
      | (cases hok; exact ⟨by simp [stateRank, bareCtx], Or.inr (Or.inl rfl)⟩)
      | (cases hok; exact ⟨by cases cat <;> simp [after_attr_delimiter, stateRank, attr_type_of, element_type_of],
          Or.inr (Or.inr rfl)⟩)

end Autoesc

namespace Autoesc

lemma stateRank_le_two (s : State) : stateRank s ≤ 2 := by
  cases s <;> simp [stateRank]

lemma state_ne_of_rank_lt {a b : State} (h : stateRank a < stateRank b) :
    a ≠ b := by
  intro hab
  rw [hab] at h
  exact Nat.lt_irrefl _ h

/-- For nonempty input and a non-error context, the infinite-loop guard of
`_process_next_token` never fires on the real transition table: the token
scanner returns the selected rule's consumed length, next context and
normalized text (propagating a raised `ContextUpdateFailure`), or consumes
everything into `STATE_ERROR` when no rule matched. -/
lemma pnt_characterization (text : List Char) (c : Context)
    (hne : text ≠ []) (he : is_error_context c = false) :
    _process_next_token text c =
      match findEarliest c text with
      | some (t, m) =>
        (t.compute_next_context c m).map fun c2 => (m.stop, c2, t.raw_text m)
      | none => .ok (text.length, errorContext, text) := by
  unfold _process_next_token
  rw [if_neg (by simp [he])]
  cases hf : findEarliest c text with
  | none =>
    dsimp only
    unfold _inf_loop_check
    rw [if_neg]
    simp only [Bool.and_eq_true, decide_eq_true_eq]
    rintro ⟨h1, _⟩
    exact hne (List.length_eq_zero.mp h1)
  | some tm =>
    obtain ⟨t, m⟩ := tm
    dsimp only
    cases hok : t.compute_next_context c m with
    | error e => rfl
    | ok c2 =>
      dsimp only [Except.map]
      unfold _inf_loop_check
      rw [if_neg]
      simp only [Bool.and_eq_true, decide_eq_true_eq]
      rintro ⟨h1, h2⟩
      rcases findEarliestAux_mem c text _ _ _ t m hf with hcon | ⟨hmem, hs, _⟩
      · cases hcon
      · have := scan_zero_step text c c2 t m hne hmem hs hok h1
        exact state_ne_of_rank_lt this.1 h2

/-- Every successful scanner step on nonempty input consumes at least one
character or moves to a strictly lower-ranked state (with the delimiter
bookkeeping needed by the driver measure). -/
lemma pnt_progress (text : List Char) (c : Context) (n : Nat) (c2 : Context)
    (rep : List Char) (hne : text ≠ [])
    (h : _process_next_token text c = .ok (n, c2, rep)) :
    1 ≤ n ∨ (stateRank c2.state < stateRank c.state ∧
      (c2.delim = .NONE ∨ c2.delim = c.delim ∨ c.state = .BEFORE_VALUE)) := by
  cases he : is_error_context c with
  | true =>
    unfold _process_next_token at h
    rw [if_pos (by simp [he])] at h
    cases h
    left
    cases text with
    | nil => exact absurd rfl hne
    | cons x xs => simp
  | false =>
    rw [pnt_characterization text c hne he] at h
    cases hf : findEarliest c text with
    | none =>
      rw [hf] at h
      dsimp only at h
      cases h
      left
      cases text with
      | nil => exact absurd rfl hne
      | cons x xs => simp
    | some tm =>
      obtain ⟨t, m⟩ := tm
      rw [hf] at h
      dsimp only at h
      cases hok : t.compute_next_context c m with
      | error e => rw [hok] at h; cases h
      | ok c3 =>
        rw [hok] at h
        dsimp only [Except.map] at h
        cases h
        by_cases h0 : m.stop = 0
        · right
          rcases findEarliestAux_mem c text _ _ _ t m hf with hcon | ⟨hmem, hs, _⟩
          · cases hcon
          · exact scan_zero_step text c _ t m hne hmem hs hok h0
        · left; omega

/-- The driver measure: contexts inside an attribute value rank 1, others
by their state's zero-width rank. -/
def rank2 (c : Context) : Nat :=
  if c.delim = .NONE then stateRank c.state else 1

lemma rank2_le_two (c : Context) : rank2 c ≤ 2 := by
  unfold rank2
  split
  · exact stateRank_le_two _
  · omega

lemma rank2_lt_of_zero_step (c c2 : Context) (hd : c.delim = .NONE)
    (h1 : stateRank c2.state < stateRank c.state)
    (h2 : c2.delim = .NONE ∨ c2.delim = c.delim ∨ c.state = .BEFORE_VALUE) :
    rank2 c2 < rank2 c := by
  unfold rank2
  rw [if_pos hd]
  rcases h2 with h2 | h2 | h2
  · rw [if_pos h2]; exact h1
  · rw [if_pos (h2.trans hd)]; exact h1
  · rw [h2] at h1 ⊢
    split
    · exact h1
    · norm_num [stateRank]

lemma eav_eq_neg_one_iff (raw : List Char) (d : Delim) :
    _end_of_attr_value raw d = -1 ↔ d = .NONE := by
  constructor
  · intro h
    by_contra hd
    unfold _end_of_attr_value at h
    rw [if_neg hd] at h
    split at h
    · split at h <;> omega
    · dsimp only at h
      split at h <;> omega
  · intro h
    subst h
    unfold _end_of_attr_value
    rw [if_pos rfl]

lemma eav_nonneg (raw : List Char) (d : Delim) (hd : d ≠ .NONE) :
    (0 : Int) ≤ _end_of_attr_value raw d := by
  unfold _end_of_attr_value
  rw [if_neg hd]
  split
  · split <;> omega
  · dsimp only
    split <;> omega

/-- The inner attribute-payload loop never exhausts its fuel when the fuel
dominates the measure. -/
lemma innerAttrLoop_no_fuel_out (esc : List Char → List Char) :
    ∀ (fuel : Nat) (tail : List Char) (c : Context) (acc : List Char),
      3 * tail.length + stateRank c.state < fuel →
      innerAttrLoop esc fuel tail c acc ≠ .ok none := by
  intro fuel
  induction fuel with
  | zero => intro tail c acc h; exact absurd h (Nat.not_lt_zero _)
  | succ fuel ih =>
    intro tail c acc h
    cases tail with
    | nil => simp [innerAttrLoop]
    | cons x xs =>
      simp only [innerAttrLoop]
      cases hp : _process_next_token (x :: xs) c with
      | error e => simp
      | ok t3 =>
        obtain ⟨n, c2, rep⟩ := t3
        dsimp only
        have hdrop : ((x :: xs).drop n).length = (x :: xs).length - n :=
          List.length_drop _ _
        have hr2 := stateRank_le_two c2.state
        rcases pnt_progress (x :: xs) c n c2 rep (by simp) hp with h1 | ⟨h2, _⟩
        · apply ih
          rw [hdrop]
          simp only [List.length_cons] at h ⊢
          omega
        · apply ih
          by_cases h0 : n = 0
          · subst h0
            simp only [List.drop_zero]
            omega
          · rw [hdrop]
            simp only [List.length_cons] at h ⊢
            omega

/-- The driver loop never exhausts its fuel when the fuel dominates the
measure `3 * length + rank2`. -/
lemma process_loop_no_fuel_out :
    ∀ (fuel : Nat) (raw : List Char) (c : Context) (acc : List Char),
      3 * raw.length + rank2 c < fuel →
      process_loop fuel raw c acc ≠ .ok none := by
  intro fuel
  induction fuel with
  | zero => intro raw c acc h; exact absurd h (Nat.not_lt_zero _)
  | succ fuel ih =>
    intro raw c acc h
    cases raw with
    | nil => simp [process_loop]
    | cons x xs =>
      simp only [process_loop]
      split
      · -- attr_value_end = -1: the scanner branch
        next hcond =>
        have hdelim : delim_type_of c = .NONE :=
          (eav_eq_neg_one_iff (x :: xs) (delim_type_of c)).mp hcond
        cases hp : _process_next_token (x :: xs) c with
        | error e => simp
        | ok t3 =>
          obtain ⟨n, c2, rep⟩ := t3
          dsimp only
          split
          · simp
          · next herr =>
            have hdrop : ((x :: xs).drop n).length = (x :: xs).length - n :=
              List.length_drop _ _
            have hr2 := rank2_le_two c2
            rcases pnt_progress (x :: xs) c n c2 rep (by simp) hp with h1 | ⟨h2, h3⟩
            · apply ih
              rw [hdrop]
              simp only [List.length_cons] at h ⊢
              omega
            · apply ih
              have hlt : rank2 c2 < rank2 c :=
                rank2_lt_of_zero_step c c2 hdelim h2 h3
              by_cases h0 : n = 0
              · subst h0
                simp only [List.drop_zero]
                simp only [List.length_cons] at h ⊢
                omega
              · rw [hdrop]
                simp only [List.length_cons] at h ⊢
                omega
      · -- inside an attribute value
        next hcond =>
        have hdelim : ¬ delim_type_of c = .NONE := by
          intro hd
          exact hcond ((eav_eq_neg_one_iff (x :: xs) (delim_type_of c)).mpr hd)
        have hrank : rank2 c = 1 := by
          unfold rank2
          rw [if_neg (by simpa [delim_type_of] using hdelim)]
        split
        · simp
        · -- no bad character: the inner loop, then the exit bookkeeping
          cases hi : innerAttrLoop
              (if delim_type_of c = Delim.SINGLE_QUOTE then escape_html_sq_only
               else escape_html_dq_only)
              (3 * (unescape_html ((x :: xs).take
                (_end_of_attr_value (x :: xs) (delim_type_of c)).toNat)).length + 4)
              (unescape_html ((x :: xs).take
                (_end_of_attr_value (x :: xs) (delim_type_of c)).toNat))
              c acc with
          | error e => simp
          | ok oi =>
            cases oi with
            | none =>
              exact absurd hi (innerAttrLoop_no_fuel_out _ _ _ _ _
                (by have := stateRank_le_two c.state; omega))
            | some p =>
              obtain ⟨c2, norm2⟩ := p
              dsimp only
              have have0 : (0 : Int) ≤ _end_of_attr_value (x :: xs) (delim_type_of c) :=
                eav_nonneg _ _ (by simpa using hdelim)
              by_cases hlt : _end_of_attr_value (x :: xs) (delim_type_of c)
                  < ((x :: xs).length : Int)
              · -- a delimiter was found: consume past it, back to the tag
                rw [if_pos hlt, if_pos (show _end_of_attr_value (x :: xs)
                    (delim_type_of c) + ((DELIM_TEXT (delim_type_of c)).length : Int)
                    ≠ -1 by omega)]
                split
                · simp
                · apply ih
                  rw [List.length_drop]
                  have hr0 : rank2 ⟨.TAG, element_type_of c2, .NONE, .NONE, .NONE,
                      .REGEX⟩ = 0 := rfl
                  rw [hr0]
                  simp only [List.length_cons] at h ⊢
                  omega
              · -- unterminated value: the whole tail was the attribute
                rw [if_neg hlt, if_neg (show ¬ ((-1 : Int) ≠ -1) by simp)]
                split
                · simp
                · split
                  · simp
                  · simp [process_loop]

end Autoesc

namespace Autoesc

/-- On the empty input the only states with an applicable matching rule are
`ATTR_NAME` (its `\A` rule moves to `AFTER_NAME`) and `AFTER_NAME` (its
`\A` rule moves back to the tag); every other state's epsilon transition is
the identity. -/
lemma eps_spec (c : Context) :
    force_epsilon_transition c =
      match c.state with
      | .ATTR_NAME => { c with state := .AFTER_NAME, urlPart := .NONE }
      | .AFTER_NAME => ⟨.TAG, c.element, .NONE, .NONE, .NONE, .REGEX⟩
      | _ => c := by
  obtain ⟨cs, cel, cat, cdl, cup, cjs⟩ := c
  cases cs <;> first | rfl | (cases cup <;> rfl)

lemma epsRank_le_two (s : State) : epsRank s ≤ 2 := by
  cases s <;> simp [epsRank]

lemma eps_rank (c : Context) :
    force_epsilon_transition c = c ∨
      epsRank (force_epsilon_transition c).state < epsRank c.state := by
  rw [eps_spec]
  obtain ⟨cs, cel, cat, cdl, cup, cjs⟩ := c
  cases cs <;> first
    | exact Or.inl rfl
    | exact Or.inr (by norm_num [epsRank])

lemma eps_error : force_epsilon_transition errorContext = errorContext := rfl

/-- Fuel irrelevance for `context_union_fuel`: any fuel strictly above the
`epsRank` measure computes the same result. -/
lemma context_union_fuel_irrel :
    ∀ (n m : Nat) (a b : Context),
      epsRank a.state + epsRank b.state < n →
      epsRank a.state + epsRank b.state < m →
      context_union_fuel n a b = context_union_fuel m a b := by
  intro n
  induction n with
  | zero => intro m a b hn _; exact absurd hn (Nat.not_lt_zero _)
  | succ n ih =>
    intro m a b hn hm
    cases m with
    | zero => exact absurd hm (Nat.not_lt_zero _)
    | succ m =>
      simp only [context_union_fuel]
      by_cases h1 : a = b
      · rw [if_pos h1, if_pos h1]
      rw [if_neg h1, if_neg h1]
      by_cases h2 : a = { b with jsCtx := js_ctx_of a }
      · rw [if_pos h2, if_pos h2]
      rw [if_neg h2, if_neg h2]
      by_cases h3 : a = { b with urlPart := url_part_of a }
      · rw [if_pos h3, if_pos h3]
      rw [if_neg h3, if_neg h3]
      try dsimp only
      by_cases h4 : a ≠ force_epsilon_transition a ∨ b ≠ force_epsilon_transition b
      · rw [if_pos h4, if_pos h4]
        have hdec : epsRank (force_epsilon_transition a).state
            + epsRank (force_epsilon_transition b).state
            < epsRank a.state + epsRank b.state := by
          rcases eps_rank a with ha | ha <;> rcases eps_rank b with hb | hb
          · rcases h4 with h4 | h4
            · exact absurd ha.symm h4
            · exact absurd hb.symm h4
          · rw [ha]; omega
          · rw [hb]; omega
          · omega
        exact ih m _ _ (by omega) (by omega)
      · rw [if_neg h4, if_neg h4]

lemma context_union_fuel_eq (n : Nat) (a b : Context)
    (h : epsRank a.state + epsRank b.state < n) :
    context_union_fuel n a b = context_union a b := by
  unfold context_union
  exact context_union_fuel_irrel n 5 a b h
    (by have := epsRank_le_two a.state; have := epsRank_le_two b.state; omega)

lemma context_union_fuel_succ (n : Nat) (a b : Context) :
    context_union_fuel (n + 1) a b =
      if a = b then a
      else if a = { b with jsCtx := js_ctx_of a } then
        { a with jsCtx := .UNKNOWN }
      else if a = { b with urlPart := url_part_of a } then
        { a with urlPart := .UNKNOWN }
      else if a ≠ force_epsilon_transition a ∨ b ≠ force_epsilon_transition b
      then
        context_union_fuel n (force_epsilon_transition a)
          (force_epsilon_transition b)
      else errorContext := rfl

/-- One unfolding of `context_union`, with the recursive call given back in
terms of `context_union` itself. -/
lemma context_union_unfold (a b : Context) :
    context_union a b =
      if a = b then a
      else if a = { b with jsCtx := js_ctx_of a } then
        { a with jsCtx := .UNKNOWN }
      else if a = { b with urlPart := url_part_of a } then
        { a with urlPart := .UNKNOWN }
      else if a ≠ force_epsilon_transition a ∨ b ≠ force_epsilon_transition b
      then
        context_union (force_epsilon_transition a) (force_epsilon_transition b)
      else errorContext := by
  show context_union_fuel (4 + 1) a b = _
  rw [context_union_fuel_succ]
  by_cases h1 : a = b
  · rw [if_pos h1, if_pos h1]
  rw [if_neg h1, if_neg h1]
  by_cases h2 : a = { b with jsCtx := js_ctx_of a }
  · rw [if_pos h2, if_pos h2]
  rw [if_neg h2, if_neg h2]
  by_cases h3 : a = { b with urlPart := url_part_of a }
  · rw [if_pos h3, if_pos h3]
  rw [if_neg h3, if_neg h3]
  try dsimp only
  by_cases h4 : a ≠ force_epsilon_transition a ∨ b ≠ force_epsilon_transition b
  · rw [if_pos h4, if_pos h4]
    apply context_union_fuel_eq
    rcases eps_rank a with ha | ha <;> rcases eps_rank b with hb | hb
    · rcases h4 with h4 | h4
      · exact absurd ha.symm h4
      · exact absurd hb.symm h4
    · rw [ha]
      have := epsRank_le_two a.state
      have := epsRank_le_two b.state
      omega
    · rw [hb]
      have := epsRank_le_two a.state
      have := epsRank_le_two b.state
      omega
    · have := epsRank_le_two a.state
      have := epsRank_le_two b.state
      omega
  · rw [if_neg h4, if_neg h4]

lemma ctx_js_diff_symm (a b : Context) :
    a = { b with jsCtx := js_ctx_of a } ↔ b = { a with jsCtx := js_ctx_of b } := by
  obtain ⟨as', ael, aat, adl, aup, ajs⟩ := a
  obtain ⟨bs, bel, bat, bdl, bup, bjs⟩ := b
  simp only [js_ctx_of, Context.mk.injEq]
  constructor
  · rintro ⟨h1, h2, h3, h4, h5, -⟩
    exact ⟨h1.symm, h2.symm, h3.symm, h4.symm, h5.symm, by trivial⟩
  · rintro ⟨h1, h2, h3, h4, h5, -⟩
    exact ⟨h1.symm, h2.symm, h3.symm, h4.symm, h5.symm, by trivial⟩

lemma ctx_url_diff_symm (a b : Context) :
    a = { b with urlPart := url_part_of a }
      ↔ b = { a with urlPart := url_part_of b } := by
  obtain ⟨as', ael, aat, adl, aup, ajs⟩ := a
  obtain ⟨bs, bel, bat, bdl, bup, bjs⟩ := b
  simp only [url_part_of, Context.mk.injEq]
  constructor
  · rintro ⟨h1, h2, h3, h4, -, h6⟩
    exact ⟨h1.symm, h2.symm, h3.symm, h4.symm, by trivial, h6.symm⟩
  · rintro ⟨h1, h2, h3, h4, -, h6⟩
    exact ⟨h1.symm, h2.symm, h3.symm, h4.symm, by trivial, h6.symm⟩

lemma js_widen_eq {a b : Context} (h : a = { b with jsCtx := js_ctx_of a }) :
    ({ a with jsCtx := JsCtx.UNKNOWN } : Context)
      = { b with jsCtx := JsCtx.UNKNOWN } := by
  obtain ⟨as', ael, aat, adl, aup, ajs⟩ := a
  obtain ⟨bs, bel, bat, bdl, bup, bjs⟩ := b
  simp only [js_ctx_of, Context.mk.injEq] at h ⊢
  exact ⟨h.1, h.2.1, h.2.2.1, h.2.2.2.1, h.2.2.2.2.1, by trivial⟩

lemma url_widen_eq {a b : Context}
    (h : a = { b with urlPart := url_part_of a }) :
    ({ a with urlPart := UrlPart.UNKNOWN } : Context)
      = { b with urlPart := UrlPart.UNKNOWN } := by
  obtain ⟨as', ael, aat, adl, aup, ajs⟩ := a
  obtain ⟨bs, bel, bat, bdl, bup, bjs⟩ := b
  simp only [url_part_of, Context.mk.injEq] at h ⊢
  exact ⟨h.1, h.2.1, h.2.2.1, h.2.2.2.1, by trivial, h.2.2.2.2.2⟩

/-- Commutativity of `context_union`, by induction on the `epsRank`
measure. -/
lemma context_union_comm_aux :
    ∀ (n : Nat) (a b : Context), epsRank a.state + epsRank b.state ≤ n →
      context_union a b = context_union b a := by
  intro n
  induction n with
  | zero =>
    intro a b hab
    rw [context_union_unfold a b, context_union_unfold b a]
    by_cases h1 : a = b
    · rw [if_pos h1, if_pos h1.symm, h1]
    rw [if_neg h1, if_neg (show ¬b = a from fun hcon => h1 hcon.symm)]
    by_cases h2 : a = { b with jsCtx := js_ctx_of a }
    · rw [if_pos h2, if_pos ((ctx_js_diff_symm a b).mp h2)]
      exact js_widen_eq h2
    rw [if_neg h2, if_neg (fun hcon => h2 ((ctx_js_diff_symm a b).mpr hcon))]
    by_cases h3 : a = { b with urlPart := url_part_of a }
    · rw [if_pos h3, if_pos ((ctx_url_diff_symm a b).mp h3)]
      exact url_widen_eq h3
    rw [if_neg h3, if_neg (fun hcon => h3 ((ctx_url_diff_symm a b).mpr hcon))]
    have hea : force_epsilon_transition a = a := by
      rcases eps_rank a with h | h
      · exact h
      · omega
    have heb : force_epsilon_transition b = b := by
      rcases eps_rank b with h | h
      · exact h
      · omega
    rw [if_neg (by rw [hea, heb]; simp), if_neg (by rw [hea, heb]; simp)]
  | succ n ih =>
    intro a b hab
    rw [context_union_unfold a b, context_union_unfold b a]
    by_cases h1 : a = b
    · rw [if_pos h1, if_pos h1.symm, h1]
    rw [if_neg h1, if_neg (show ¬b = a from fun hcon => h1 hcon.symm)]
    by_cases h2 : a = { b with jsCtx := js_ctx_of a }
    · rw [if_pos h2, if_pos ((ctx_js_diff_symm a b).mp h2)]
      exact js_widen_eq h2
    rw [if_neg h2, if_neg (fun hcon => h2 ((ctx_js_diff_symm a b).mpr hcon))]
    by_cases h3 : a = { b with urlPart := url_part_of a }
    · rw [if_pos h3, if_pos ((ctx_url_diff_symm a b).mp h3)]
      exact url_widen_eq h3
    rw [if_neg h3, if_neg (fun hcon => h3 ((ctx_url_diff_symm a b).mpr hcon))]
    by_cases h4 : a ≠ force_epsilon_transition a ∨ b ≠ force_epsilon_transition b
    · rw [if_pos h4, if_pos h4.symm]
      apply ih
      rcases eps_rank a with ha | ha <;> rcases eps_rank b with hb | hb
      · rcases h4 with h4 | h4
        · exact absurd ha.symm h4
        · exact absurd hb.symm h4
      · rw [ha]; omega
      · rw [hb]; omega
      · omega
    · rw [if_neg h4, if_neg (show ¬(b ≠ force_epsilon_transition b
        ∨ a ≠ force_epsilon_transition a) from fun hcon => h4 hcon.symm)]

/-- `context_union(a, ERROR)` always lands in an error-state context. -/
lemma context_union_error_absorb_aux :
    ∀ (n : Nat) (a : Context), epsRank a.state ≤ n →
      is_error_context (context_union a errorContext) = true := by
  intro n
  induction n with
  | zero =>
    intro a ha
    rw [context_union_unfold]
    by_cases h1 : a = errorContext
    · rw [if_pos h1, h1]; rfl
    rw [if_neg h1]
    by_cases h2 : a = { errorContext with jsCtx := js_ctx_of a }
    · rw [if_pos h2]
      have hs : a.state = State.ERROR := by rw [h2]; rfl
      simp [is_error_context, hs]
    rw [if_neg h2]
    by_cases h3 : a = { errorContext with urlPart := url_part_of a }
    · rw [if_pos h3]
      have hs : a.state = State.ERROR := by rw [h3]; rfl
      simp [is_error_context, hs]
    rw [if_neg h3]
    have hea : force_epsilon_transition a = a := by
      rcases eps_rank a with h | h
      · exact h
      · omega
    rw [if_neg (by rw [hea, eps_error]; simp)]
    rfl
  | succ n ih =>
    intro a ha
    rw [context_union_unfold]
    by_cases h1 : a = errorContext
    · rw [if_pos h1, h1]; rfl
    rw [if_neg h1]
    by_cases h2 : a = { errorContext with jsCtx := js_ctx_of a }
    · rw [if_pos h2]
      have hs : a.state = State.ERROR := by rw [h2]; rfl
      simp [is_error_context, hs]
    rw [if_neg h2]
    by_cases h3 : a = { errorContext with urlPart := url_part_of a }
    · rw [if_pos h3]
      have hs : a.state = State.ERROR := by rw [h3]; rfl
      simp [is_error_context, hs]
    rw [if_neg h3]
    by_cases h4 : a = force_epsilon_transition a
    · rw [if_neg (by rw [← h4, eps_error]; simp)]
      rfl
    · rw [if_pos (Or.inl (fun hcon => h4 hcon)), eps_error]
      apply ih
      rcases eps_rank a with h | h
      · exact absurd h.symm h4
      · omega

end Autoesc

namespace Autoesc

/-! ### Connection lemmas for `_end_of_attr_value` (claim C7) -/

lemma searchIdx_elim (p : Char → Bool) :
    ∀ raw : List Char,
      (match searchIdx p raw with
       | some i => (i : Int)
       | none => (raw.length : Int)) = (raw.findIdx p : Int) := by
  intro raw
  induction raw with
  | nil => simp [searchIdx]
  | cons c r ih =>
    simp only [searchIdx, List.findIdx_cons]
    cases hp : p c with
    | true => simp
    | false =>
      simp only [Bool.false_eq_true, if_false, cond_false]
      cases hs : searchIdx p r with
      | none =>
        rw [hs] at ih
        simp only [hs, Option.map_none']
        dsimp only at ih ⊢
        simp only [List.length_cons]
        push_cast at ih ⊢
        rw [ih]
      | some i =>
        rw [hs] at ih
        simp only [hs, Option.map_some']
        dsimp only at ih ⊢
        push_cast at ih ⊢
        rw [ih]

lemma listFind_single (q : Char) :
    ∀ raw : List Char,
      (if listFind [q] raw ≥ 0 then listFind [q] raw else (raw.length : Int))
        = (raw.findIdx (· == q) : Int) := by
  intro raw
  induction raw with
  | nil =>
    simp [listFind, startsWithCS]
  | cons c r ih =>
    by_cases hc : c = q
    · have h2 : listFind [q] (c :: r) = 0 := by
        simp only [listFind]
        rw [if_pos (by simp [startsWithCS, hc])]
      rw [h2]
      simp [List.findIdx_cons, hc]
    · have h2 : listFind [q] (c :: r)
          = if listFind [q] r < 0 then -1 else listFind [q] r + 1 := by
        simp only [listFind]
        rw [if_neg (by simp [startsWithCS, hc])]
      have hq : (c == q) = false := by simp [hc]
      rw [h2]
      simp only [List.findIdx_cons, hq, cond_false]
      by_cases hv : listFind [q] r < 0
      · rw [if_pos hv]
        rw [if_neg (show ¬((-1 : Int) ≥ 0) by omega)]
        rw [if_neg (show ¬(listFind [q] r ≥ 0) by omega)] at ih
        simp only [List.length_cons]
        push_cast at ih ⊢
        rw [ih]
      · rw [if_neg hv]
        rw [if_pos (show (listFind [q] r + 1 : Int) ≥ 0 by omega)]
        rw [if_pos (show (listFind [q] r : Int) ≥ 0 by omega)] at ih
        push_cast at ih ⊢
        rw [ih]

/-- C7: `_end_of_attr_value(raw, delim)` returns `-1` for `DELIM_NONE`; the
index of the first whitespace or `>` (else `len(raw)`) for
`DELIM_SPACE_OR_TAG_END`; and the index of the first matching quote
character (else `len(raw)`) for the quoted delimiters.  (`List.findIdx`
returns the length when no element satisfies the predicate.) -/
theorem c7_end_of_attr_value (raw : List Char) :
    _end_of_attr_value raw .NONE = -1 ∧
    _end_of_attr_value raw .SPACE_OR_TAG_END
      = (raw.findIdx (fun c => isPySpace c || c == '>') : Int) ∧
    _end_of_attr_value raw .DOUBLE_QUOTE
      = (raw.findIdx (· == '"') : Int) ∧
    _end_of_attr_value raw .SINGLE_QUOTE
      = (raw.findIdx (· == '\'') : Int) := by
  refine ⟨rfl, ?_, ?_, ?_⟩
  · show (match searchIdx (fun c => isPySpace c || c == '>') raw with
      | some i => (i : Int)
      | none => (raw.length : Int)) = _
    exact searchIdx_elim _ raw
  · show (if listFind ['"'] raw ≥ 0 then listFind ['"'] raw
      else (raw.length : Int)) = _
    exact listFind_single '"' raw
  · show (if listFind ['\''] raw ≥ 0 then listFind ['\''] raw
      else (raw.length : Int)) = _
    exact listFind_single '\'' raw

/-- C9: processing the empty chunk returns the context unchanged, an empty
normalized string, and no error fields — even when the context is already
an error context. -/
theorem c9_empty_input (context : Context) :
    process_raw_text [] context = .ok (some (context, some [], none, none)) :=
  rfl

/-- C1: on nonempty text and a non-error context, `_process_next_token`
selects, among the rules of the current state's table whose pattern matches
and whose `is_applicable_to` holds, the one with the minimum match start
(ties toward the earlier table position — `selectEarliest` is that stable
minimum); it returns `(match.end, compute_next_context(ctx, match),
raw_text(match))` (propagating a raised error), and `(len(text), ERROR,
text)` when no rule matches and applies. -/
theorem c1_process_next_token (text : List Char) (context : Context)
    (hne : text ≠ []) (herr : is_error_context context = false) :
    findEarliest context text = selectEarliest (scanCandidates context text) ∧
    (scanCandidates context text = [] →
      _process_next_token text context
        = .ok (text.length, errorContext, text)) ∧
    (∀ t m, selectEarliest (scanCandidates context text) = some (t, m) →
      _process_next_token text context
        = (t.compute_next_context context m).map
            fun c2 => (m.stop, c2, t.raw_text m)) := by
  have hsel : findEarliest context text
      = selectEarliest (scanCandidates context text) := by
    unfold findEarliest
    exact findEarliestAux_eq_selectEarliest context text _ _ none
      (by intro y hy; cases hy)
      (by intro _ t ht m hm _
          have := table_start_bound _ t ht text m hm
          omega)
  refine ⟨hsel, ?_, ?_⟩
  · intro hcand
    rw [pnt_characterization text context hne herr, hsel, hcand]
    rfl
  · intro t m hsm
    rw [pnt_characterization text context hne herr, hsel, hsm]

/-- Witness for C1: in `STATE_JS` no rule matches the text `\`, so the
scanner consumes it all into the ERROR context. -/
theorem c1_witness :
    (['\\'] ≠ ([] : List Char)) ∧
    is_error_context ⟨.JS, .NONE, .NONE, .NONE, .NONE, .REGEX⟩ = false ∧
    scanCandidates ⟨.JS, .NONE, .NONE, .NONE, .NONE, .REGEX⟩ ['\\'] = [] ∧
    _process_next_token ['\\'] ⟨.JS, .NONE, .NONE, .NONE, .NONE, .REGEX⟩
      = .ok (1, errorContext, ['\\']) :=
  ⟨by decide, rfl, rfl,
    (c1_process_next_token ['\\'] ⟨.JS, .NONE, .NONE, .NONE, .NONE, .REGEX⟩
      (by decide) rfl).2.1 rfl⟩

/-- C2 counterexample: for the error-state context whose js-ctx field is
`DIV_OP`, `context_union(a, ERROR)` widens js-ctx to `UNKNOWN` and so does
not equal the distinguished ERROR context value. -/
theorem c2_union_error_counterexample :
    context_union ⟨.ERROR, .NONE, .NONE, .NONE, .NONE, .DIV_OP⟩ errorContext
        = ⟨.ERROR, .NONE, .NONE, .NONE, .NONE, .UNKNOWN⟩ ∧
    (⟨.ERROR, .NONE, .NONE, .NONE, .NONE, .UNKNOWN⟩ : Context)
      ≠ errorContext :=
  ⟨rfl, by decide⟩

/-- C2 (amended): `context_union` is reflexive and commutative, and
`context_union(a, ERROR)` is always an error context (`is_error_context`);
it equals the distinguished ERROR value except when `a` differs from ERROR
only in js-ctx or only in url-part, where that field is widened to
UNKNOWN. -/
theorem c2_context_union_properties :
    (∀ a : Context, context_union a a = a) ∧
    (∀ a b : Context, context_union a b = context_union b a) ∧
    (∀ a : Context, is_error_context (context_union a errorContext) = true) := by
  refine ⟨?_, ?_, ?_⟩
  · intro a
    rw [context_union_unfold, if_pos rfl]
  · intro a b
    exact context_union_comm_aux (epsRank a.state + epsRank b.state) a b
      (Nat.le_refl _)
  · intro a
    exact context_union_error_absorb_aux (epsRank a.state) a (Nat.le_refl _)

/-- C3 counterexample: on input `"x"` with the ERROR context,
`process_raw_text` returns the error quadruple whose normalized component
is `None` — not a normalized text equal to the raw input. -/
theorem c3_error_context_counterexample :
    process_raw_text ['x'] errorContext
        = .ok (some (errorContext, none, some errorContext, some ['x'])) ∧
    (Except.ok (some (errorContext, none, some errorContext, some ['x']))
        : Except PyError (Option PRTResult))
      ≠ .ok (some (errorContext, some ['x'], none, none)) :=
  ⟨rfl, by decide⟩

/-- C3 (amended): for a nonempty chunk and an error context with no
attribute delimiter (as the distinguished ERROR context), the call returns
the error quadruple `(ctx, None, ctx, raw)`: normalized is `None` and the
raw text is reported unchanged as the unprocessed suffix; the scanner
consumes all remaining text unchanged and the context stays the same error
context. -/
theorem c3_error_context_processing (raw : List Char) (context : Context)
    (hne : raw ≠ []) (herr : is_error_context context = true)
    (hdelim : delim_type_of context = .NONE) :
    process_raw_text raw context
      = .ok (some (context, none, some context, some raw)) ∧
    _process_next_token raw context = .ok (raw.length, context, raw) := by
  have hpnt : _process_next_token raw context
      = .ok (raw.length, context, raw) := by
    unfold _process_next_token
    rw [if_pos (by simp [herr])]
  refine ⟨?_, hpnt⟩
  cases raw with
  | nil => exact absurd rfl hne
  | cons x xs =>
    unfold process_raw_text
    obtain ⟨k, hk⟩ : ∃ k, 3 * (x :: xs).length + 4 = k + 1 :=
      ⟨3 * (x :: xs).length + 3, by omega⟩
    rw [hk]
    simp only [process_loop]
    rw [hdelim]
    rw [if_pos (show _end_of_attr_value (x :: xs) Delim.NONE = -1 from
      (eav_eq_neg_one_iff _ _).mpr rfl)]
    rw [hpnt]
    dsimp only
    rw [if_pos (by simp [herr])]

/-- Witness for C3 (amended). -/
theorem c3_witness :
    (['x'] ≠ ([] : List Char)) ∧
    is_error_context errorContext = true ∧
    delim_type_of errorContext = .NONE ∧
    process_raw_text ['x'] errorContext
      = .ok (some (errorContext, none, some errorContext, some ['x'])) ∧
    _process_next_token ['x'] errorContext = .ok (1, errorContext, ['x']) := by
  have h := c3_error_context_processing ['x'] errorContext (by decide) rfl rfl
  exact ⟨by decide, rfl, rfl, h.1, h.2⟩

/-- C4: the Slash rule of `STATE_JS` turns a `/` into the start of a regex
literal after a division context (`STATE_JS | JS_CTX_REGEX`), into
`STATE_JSREGEXP` after a regex-preceding context, and raises a
`ContextUpdateFailure` naming the offending remaining substring when the
js-ctx is UNKNOWN. -/
theorem c4_slash_transition (prior : Context) (m : SMatch)
    (_hstate : state_of prior = .JS)
    (_hm : searchLit ['/'] m.str = some m) :
    (js_ctx_of prior = .DIV_OP →
      (_SlashTransition (searchLit ['/'])).compute_next_context prior m
        = .ok { prior with state := .JS, jsCtx := .REGEX }) ∧
    (js_ctx_of prior = .REGEX →
      (_SlashTransition (searchLit ['/'])).compute_next_context prior m
        = .ok { prior with state := .JSREGEXP, jsCtx := .REGEX }) ∧
    (js_ctx_of prior = .UNKNOWN →
      (_SlashTransition (searchLit ['/'])).compute_next_context prior m
        = .error (.ContextUpdateFailure
            (slashAmbiguityMsg (m.str.drop m.start)))) := by
  refine ⟨?_, ?_, ?_⟩ <;> intro h <;> simp [_SlashTransition, h]

/-- Witness for C4: a `/` in a division context re-enters `STATE_JS` with
js-ctx REGEX. -/
theorem c4_witness :
    state_of ⟨.JS, .NONE, .NONE, .NONE, .NONE, .DIV_OP⟩ = .JS ∧
    searchLit ['/'] ['/', 'x'] = some ⟨['/', 'x'], 0, 1, none⟩ ∧
    js_ctx_of ⟨.JS, .NONE, .NONE, .NONE, .NONE, .DIV_OP⟩ = .DIV_OP ∧
    (_SlashTransition (searchLit ['/'])).compute_next_context
        ⟨.JS, .NONE, .NONE, .NONE, .NONE, .DIV_OP⟩ ⟨['/', 'x'], 0, 1, none⟩
      = .ok ⟨.JS, .NONE, .NONE, .NONE, .NONE, .REGEX⟩ :=
  ⟨rfl, rfl, rfl,
    (c4_slash_transition ⟨.JS, .NONE, .NONE, .NONE, .NONE, .DIV_OP⟩
      ⟨['/', 'x'], 0, 1, none⟩ rfl rfl).1 rfl⟩

/-- C5: with the unquoted (SPACE_OR_TAG_END) delimiter, if the portion of
the chunk before the computed end of the attribute value contains any of
NUL, `"`, `'`, `<`, `=`, or backtick, `process_raw_text` fails the whole
chunk with a `ContextUpdateFailure`. -/
theorem c5_unquoted_bad_chars (raw : List Char) (context : Context)
    (hne : raw ≠ [])
    (hdelim : delim_type_of context = .SPACE_OR_TAG_END)
    (hbad : ((raw.take (_end_of_attr_value raw .SPACE_OR_TAG_END).toNat).any
        isBadUnquotedChar) = true) :
    ∃ msg, process_raw_text raw context
      = .error (.ContextUpdateFailure msg) := by
  cases raw with
  | nil => exact absurd rfl hne
  | cons x xs =>
    unfold process_raw_text
    obtain ⟨k, hk⟩ : ∃ k, 3 * (x :: xs).length + 4 = k + 1 :=
      ⟨3 * (x :: xs).length + 3, by omega⟩
    rw [hk]
    simp only [process_loop]
    rw [hdelim]
    rw [if_neg (show ¬ _end_of_attr_value (x :: xs) Delim.SPACE_OR_TAG_END = -1
      from fun hcon => by
        have h5 := (eav_eq_neg_one_iff _ _).mp hcon
        exact Delim.noConfusion h5)]
    rw [if_pos rfl]
    obtain ⟨bad, hmem, hbadc⟩ := List.any_eq_true.mp hbad
    have hfind : ∃ b, ((x :: xs).take
        (_end_of_attr_value (x :: xs) Delim.SPACE_OR_TAG_END).toNat).find?
          isBadUnquotedChar = some b := by
      rw [← Option.isSome_iff_exists]
      rw [List.find?_isSome]
      exact ⟨bad, hmem, hbadc⟩
    obtain ⟨b, hb⟩ := hfind
    rw [hb]
    exact ⟨_, rfl⟩

/-- Witness for C5: the unquoted value `a=x` (terminated by `>`) contains
`=`, so the chunk fails. -/
theorem c5_witness :
    (['a', '=', 'x', '>'] ≠ ([] : List Char)) ∧
    delim_type_of ⟨.URL, .NONE, .URL, .SPACE_OR_TAG_END, .NONE, .REGEX⟩
      = .SPACE_OR_TAG_END ∧
    ((['a', '=', 'x', '>'].take
        (_end_of_attr_value ['a', '=', 'x', '>'] .SPACE_OR_TAG_END).toNat).any
      isBadUnquotedChar) = true ∧
    ∃ msg, process_raw_text ['a', '=', 'x', '>']
        ⟨.URL, .NONE, .URL, .SPACE_OR_TAG_END, .NONE, .REGEX⟩
      = .error (.ContextUpdateFailure msg) :=
  ⟨by decide, rfl, by decide,
    c5_unquoted_bad_chars ['a', '=', 'x', '>']
      ⟨.URL, .NONE, .URL, .SPACE_OR_TAG_END, .NONE, .REGEX⟩
      (by decide) rfl (by decide)⟩

/-- C6 counterexample: `process_raw_text("<a href=foo?x=1>", TEXT)` does
not succeed — the unquoted value `foo?x=1` contains `=`, an HTML5
parse-error trigger, so the chunk fails with `ContextUpdateFailure`. -/
theorem c6_href_counterexample :
    process_raw_text "<a href=foo?x=1>".toList (bareCtx .TEXT)
      = .error (.ContextUpdateFailure
          (unquotedBadCharMsg '=' "foo?x=1".toList)) ∧
    (Except.error (PyError.ContextUpdateFailure
        (unquotedBadCharMsg '=' "foo?x=1".toList))
        : Except PyError (Option PRTResult))
      ≠ .ok (some (bareCtx .TEXT, some "<a href=\"foo?x=1\">".toList,
          none, none)) :=
  ⟨rfl, by decide⟩

/-- C6 (amended): `"<a href=foo?x=1>"` from TEXT raises
`ContextUpdateFailure` because `=` occurs in the unquoted value; on the
otherwise-identical input `"<a href=foo?q>"` whose value has no disallowed
character, processing succeeds with synthetic double quotes around the
value, context back to TEXT, and the url-part reaches QUERY_OR_FRAG on the
`?`. -/
theorem c6_href_unquoted_url :
    process_raw_text "<a href=foo?x=1>".toList (bareCtx .TEXT)
      = .error (.ContextUpdateFailure
          (unquotedBadCharMsg '=' "foo?x=1".toList)) ∧
    process_raw_text "<a href=foo?q>".toList (bareCtx .TEXT)
      = .ok (some (bareCtx .TEXT, some "<a href=\"foo?q\">".toList,
          none, none)) ∧
    _process_next_token "foo?q".toList
        ⟨.URL, .NONE, .URL, .SPACE_OR_TAG_END, .NONE, .REGEX⟩
      = .ok (4, ⟨.URL, .NONE, .URL, .SPACE_OR_TAG_END, .QUERY_OR_FRAG,
          .REGEX⟩, "foo?".toList) :=
  ⟨rfl, rfl, rfl⟩

/-- C8 counterexample: `process_raw_text("/*\n*/", JS)` normalizes to
`" \n"` — a space (inserted for the comment opener to keep token
boundaries apart) followed by the newline — not to `"\n"`. -/
theorem c8_jsblockcomment_counterexample :
    process_raw_text "/*\n*/".toList (bareCtx .JS)
      = .ok (some (bareCtx .JS, some " \n".toList, none, none)) ∧
    (" \n".toList ≠ "\n".toList) :=
  ⟨rfl, by decide⟩

/-- C8 (amended): `"/*\n*/"` from `STATE_JS` returns to `STATE_JS` with
normalized output `" \n"`: the `/*` opener is normalized to a single space
(preventing token blurring), and the newline-containing comment body
collapses to a single `"\n"`. -/
theorem c8_jsblockcomment_normalization :
    process_raw_text "/*\n*/".toList (bareCtx .JS)
      = .ok (some (bareCtx .JS, some " \n".toList, none, none)) :=
  rfl

/-- C10: `process_raw_text` terminates — the fuel `3 * len + 4` strictly
dominates the loop measure, so the fuel-exhaustion marker `.ok none` is
unreachable; every successful scanner step on nonempty input consumes at
least one character or changes the state; and a step that consumed nothing
while leaving the state unchanged raises the internal infinite-loop
invariant error. -/
theorem c10_termination :
    (∀ (raw : List Char) (context : Context),
      process_raw_text raw context ≠ .ok none) ∧
    (∀ (text : List Char) (context : Context) (n : Nat) (c2 : Context)
        (rep : List Char), text ≠ [] →
      _process_next_token text context = .ok (n, c2, rep) →
      1 ≤ n ∨ state_of c2 ≠ state_of context) ∧
    (∀ (context next_context : Context) (normalized : List Char),
      state_of next_context = state_of context →
      _inf_loop_check context 0 next_context normalized
        = .error .InfLoopError) := by
  refine ⟨?_, ?_, ?_⟩
  · intro raw context
    apply process_loop_no_fuel_out
    have := rank2_le_two context
    omega
  · intro text context n c2 rep hne h
    rcases pnt_progress text context n c2 rep hne h with h1 | ⟨h2, _⟩
    · exact Or.inl h1
    · exact Or.inr (state_ne_of_rank_lt h2)
  · intro context next_context normalized h
    unfold _inf_loop_check
    have h2 : state_of next_context = state_of context := h
    rw [if_pos (by simp [h2])]

/-- Witness for C10. -/
theorem c10_witness :
    process_raw_text "<b>".toList (bareCtx .TEXT) ≠ .ok none ∧
    (1 ≤ 1 ∨ state_of errorContext ≠ state_of (bareCtx .JS)) ∧
    _inf_loop_check (bareCtx .TEXT) 0 (bareCtx .TEXT) []
      = .error .InfLoopError :=
  ⟨c10_termination.1 "<b>".toList (bareCtx .TEXT),
    c10_termination.2.1 ['\\'] (bareCtx .JS) 1 errorContext ['\\']
      (by decide) rfl,
    c10_termination.2.2 (bareCtx .TEXT) (bareCtx .TEXT) [] rfl⟩

end Autoesc
